import Mathlib

/-!
Verification development for the `stop` Go front end (package `ast`).

The definitions below are a shallow embedding of the repository's source:

* `src/ast/ast.go` — the AST node model with `Start`/`End` span bookkeeping
  (the first, `CompositeLiteral`-bearing version of the file);
* `src/ast/grammar.go` — the expression grammar (`EG` namespace below);
* `src/unnamed/part_001` — the declarations grammar (`DG` namespace below);
* `src/ast/decl.go` — the symbol table and declaration resolver;
* `src/ast/errors.go` — the error taxonomy.

The token cursor (`Parser` struct with `tok`/`lex`/`next`/`expect`/`err`),
the `span` struct, and the AST structs referenced only from `decl.go`
(`File`, `FunctionDecl`, `MethodDecl`, `VarSpec`, `ImportDecl`) are not
present under `src/`; they are modelled from the spec where so marked.
External library calls (`math/big`, `strconv`, `strings`) are modelled by
executable Lean functions documented at their definitions.

Go's panic/recover unwinding is modelled by `Except`: grammar functions
return `Except PErr (α × Parser)` where `PErr.unwind` carries the panicked
value (a `*SyntaxError`, a `*MalformedLiteral`, or a plain string) and
`PErr.outOfFuel` is a structural-termination device (a fuel parameter
substitutes for Go's unbounded recursion; with enough fuel it never fires).
-/

set_option maxRecDepth 20000
set_option maxHeartbeats 1000000

namespace Stop

/-- A source location. The spec orders locations lexicographically by
(line, column). -/
structure Location where
  line : Nat
  col : Nat
deriving DecidableEq, Repr

/-- Lexicographic order on locations by (line, column), as a Boolean. -/
def locLe (a b : Location) : Bool :=
  a.line < b.line || (a.line == b.line && a.col ≤ b.col)

/-- Modelled from the spec: the `span` struct embedded by AST nodes
(an immutable source position pair; `Start`/`End` return its fields).
The Go field `end` is called `endLoc` here. -/
structure Span where
  start : Location
  endLoc : Location
deriving DecidableEq, Repr

/-- Token kinds, following the `token` package names used by the grammar
(`token.Type` is `TypeKw` here, and likewise for the other keywords that
clash with Lean). -/
inductive Tok where
  | Identifier
  | IntegerLiteral
  | FloatLiteral
  | ImaginaryLiteral
  | RuneLiteral
  | StringLiteral
  | OrOr
  | AndAnd
  | EqualEqual
  | BangEqual
  | Less
  | LessEqual
  | Greater
  | GreaterEqual
  | Plus
  | Minus
  | Or
  | Carrot
  | Star
  | Divide
  | Percent
  | LessLess
  | GreaterGreater
  | And
  | AndCarrot
  | Bang
  | LessMinus
  | OpenParen
  | CloseParen
  | OpenBracket
  | CloseBracket
  | OpenBrace
  | CloseBrace
  | Colon
  | Comma
  | Dot
  | DotDotDot
  | Semicolon
  | Equal
  | ColonEqual
  | StructKw
  | InterfaceKw
  | FuncKw
  | MapKw
  | ChanKw
  | VarKw
  | ConstKw
  | TypeKw
  | EOF
deriving DecidableEq, Repr

/-- Modelled from the spec: the human-readable description of an expected
token used in `location: expected <X>, got <Y>` diagnostics (the `Parser.err`
helper is not under `src/`). Punctuation renders as its surface text. -/
def tokStr : Tok → String
  | .Identifier => "identifier"
  | .IntegerLiteral => "integer literal"
  | .FloatLiteral => "float literal"
  | .ImaginaryLiteral => "imaginary literal"
  | .RuneLiteral => "rune literal"
  | .StringLiteral => "string literal"
  | .OrOr => "||"
  | .AndAnd => "&&"
  | .EqualEqual => "=="
  | .BangEqual => "!="
  | .Less => "<"
  | .LessEqual => "<="
  | .Greater => ">"
  | .GreaterEqual => ">="
  | .Plus => "+"
  | .Minus => "-"
  | .Or => "|"
  | .Carrot => "^"
  | .Star => "*"
  | .Divide => "/"
  | .Percent => "%"
  | .LessLess => "<<"
  | .GreaterGreater => ">>"
  | .And => "&"
  | .AndCarrot => "&^"
  | .Bang => "!"
  | .LessMinus => "<-"
  | .OpenParen => "("
  | .CloseParen => ")"
  | .OpenBracket => "["
  | .CloseBracket => "]"
  | .OpenBrace => "\x7b"
  | .CloseBrace => "\x7d"
  | .Colon => ":"
  | .Comma => ","
  | .Dot => "."
  | .DotDotDot => "..."
  | .Semicolon => ";"
  | .Equal => "="
  | .ColonEqual => ":="
  | .StructKw => "struct"
  | .InterfaceKw => "interface"
  | .FuncKw => "func"
  | .MapKw => "map"
  | .ChanKw => "chan"
  | .VarKw => "var"
  | .ConstKw => "const"
  | .TypeKw => "type"
  | .EOF => "EOF"

/-- A lexed token: kind, raw text, and start/end source locations
(the lexer is an external collaborator producing this interface). -/
structure Token where
  kind : Tok
  text : String
  start : Location
  endLoc : Location
deriving DecidableEq, Repr

/-- The token returned by the cursor once the input is exhausted. -/
def eofTok : Token := ⟨.EOF, "", ⟨0, 0⟩, ⟨0, 0⟩⟩

/-- Modelled from the spec: the parser's token cursor (the `Parser` struct
with its `lex` field is not under `src/`). It exposes the current token and
an advance operation, the only way the position moves forward. -/
structure Parser where
  toks : List Token
deriving DecidableEq, Repr

/-- The current token (`p.lex`'s current token). -/
def Parser.cur (p : Parser) : Token := p.toks.headD eofTok

/-- The current token kind (`p.tok`). -/
def Parser.tok (p : Parser) : Tok := p.cur.kind

/-- The current token text (`p.text()` / `p.lex.Text()`). -/
def Parser.text (p : Parser) : String := p.cur.text

/-- The current token's span (`p.span()`). -/
def Parser.span (p : Parser) : Span := ⟨p.cur.start, p.cur.endLoc⟩

/-- The start location of the current token (`p.lex.Start`). -/
def Parser.lexStart (p : Parser) : Location := p.cur.start

/-- The end location of the current token (`p.lex.End`). -/
def Parser.lexEnd (p : Parser) : Location := p.cur.endLoc

/-- Advance the cursor (`p.next()`). -/
def Parser.next (p : Parser) : Parser := ⟨p.toks.tail⟩

/-- A `SyntaxError` (`src/ast/errors.go`): the expected-token descriptions,
the actual token kind and text, and the offending span. The derivation-trace
field is debug-only and not modelled. -/
structure SynErr where
  wanted : List String
  got : Tok
  text : String
  start : Location
  endLoc : Location
deriving DecidableEq, Repr

/-- A `MalformedLiteral` (`src/ast/errors.go`): a literal whose text is not
convertible to its value. The Go field `Type` is `litType` here. -/
structure MalformedLit where
  litType : String
  text : String
  start : Location
  endLoc : Location
deriving DecidableEq, Repr

/-- A value carried by a Go `panic` during parsing: a `*SyntaxError`, a
`*MalformedLiteral`, or a plain string (the internal `"unimplemented"`,
`"bad string literal: …"`, `"bad rune literal: …"` panics). -/
inductive Unwind where
  | syn (e : SynErr)
  | mal (e : MalformedLit)
  | strPanic (msg : String)
deriving DecidableEq, Repr

/-- A parse-time failure: an unwinding panic value, or fuel exhaustion
(the embedding's structural-termination device, never hit with enough
fuel). -/
inductive PErr where
  | unwind (u : Unwind)
  | outOfFuel
deriving DecidableEq, Repr

/-- Modelled from the spec: `p.err(...)` builds a `SyntaxError` carrying
the expected-token descriptions, the actual token kind/text, and the
offending span. -/
def Parser.errWith (p : Parser) (wanted : List String) : SynErr :=
  ⟨wanted, p.tok, p.text, p.lexStart, p.lexEnd⟩

/-- Raise a `SyntaxError` built by `Parser.errWith` (a `panic(p.err(...))`). -/
def pmErr (p : Parser) (wanted : List String) : Except PErr α :=
  .error (.unwind (.syn (p.errWith wanted)))

/-- Modelled from the spec: `p.expect(tok)` checks the current token kind
and raises a `SyntaxError` expecting that one token otherwise. It does not
advance the cursor. -/
def Parser.expectTok (p : Parser) (t : Tok) : Except PErr Unit :=
  if p.tok = t then pure () else pmErr p [tokStr t]

/-- Raise a Go `panic` with a plain string value. -/
def pmPanic (msg : String) : Except PErr α :=
  .error (.unwind (.strPanic msg))

/-! ### Models of external library functions -/

/-- Value of a list of digit characters in the given base, or `none` if any
character is not a digit of that base. -/
def digitsVal (base : Nat) (cs : List Char) : Option Nat :=
  cs.foldl
    (fun acc c =>
      match acc with
      | none => none
      | some n =>
        let d :=
          if '0' ≤ c ∧ c ≤ '9' then some (c.toNat - '0'.toNat)
          else if 'a' ≤ c ∧ c ≤ 'f' then some (c.toNat - 'a'.toNat + 10)
          else if 'A' ≤ c ∧ c ≤ 'F' then some (c.toNat - 'A'.toNat + 10)
          else none
        match d with
        | some d => if d < base then some (n * base + d) else none
        | none => none)
    (some 0)

/-- Model of the external `math/big` `Int.SetString(s, 0)`: an optional
sign, then a `0x`/`0X` hexadecimal, `0`-prefixed octal, or decimal
magnitude; `none` when the text is not a valid integer (e.g. the malformed
octal `08`). -/
def bigIntSetString0 (s : String) : Option Int :=
  let (neg, rest) :=
    match s.data with
    | '+' :: r => (false, r)
    | '-' :: r => (true, r)
    | r => (false, r)
  let mag : Option Nat :=
    match rest with
    | [] => none
    | '0' :: 'x' :: ds => if ds = [] then none else digitsVal 16 ds
    | '0' :: 'X' :: ds => if ds = [] then none else digitsVal 16 ds
    | '0' :: ds => if ds = [] then some 0 else digitsVal 8 ds
    | ds => digitsVal 10 ds
  mag.map (fun n => if neg then -(n : Int) else (n : Int))

/-- Split a character list at the first occurrence of `sep`, if any. -/
def splitAtChar (sep : Char) (cs : List Char) : Option (List Char × List Char) :=
  match cs.findIdx? (· = sep) with
  | none => none
  | some i => some (cs.take i, cs.drop (i + 1))

/-- Model of the external `math/big` `Rat.SetString` for the forms the
lexer can produce: `[sign]digits[.digits][(e|E)[sign]digits]` and the
fraction form `a/b`; `none` when the text matches neither. -/
def bigRatSetString (s : String) : Option Rat :=
  let signedMag (cs : List Char) : Option Int :=
    match cs with
    | '+' :: r => (digitsVal 10 r).map (fun n => (n : Int))
    | '-' :: r => (digitsVal 10 r).map (fun n => -(n : Int))
    | r => (digitsVal 10 r).map (fun n => (n : Int))
  match splitAtChar '/' s.data with
  | some (numPart, denPart) => do
    let n ← signedMag numPart
    let d ← signedMag denPart
    if d = 0 then none else some ((n : Rat) / (d : Rat))
  | none =>
    let (neg, rest) :=
      match s.data with
      | '+' :: r => (false, r)
      | '-' :: r => (true, r)
      | r => (false, r)
    let (mantPart, expPart) :=
      match splitAtChar 'e' rest with
      | some (m, e) => (m, some e)
      | none =>
        match splitAtChar 'E' rest with
        | some (m, e) => (m, some e)
        | none => (rest, none)
    let mant : Option (Nat × Nat) :=
      match splitAtChar '.' mantPart with
      | some (ip, fp) =>
        if ip = [] ∧ fp = [] then none
        else do
          let i ← if ip = [] then some 0 else digitsVal 10 ip
          let f ← if fp = [] then some 0 else digitsVal 10 fp
          some (i * 10 ^ fp.length + f, fp.length)
      | none => if mantPart = [] then none else (digitsVal 10 mantPart).map (·, 0)
    do
      let (m, fracLen) ← mant
      let e : Int ←
        match expPart with
        | none => some 0
        | some cs =>
          match cs with
          | '+' :: r => if r = [] then none else (digitsVal 10 r).map (fun n => (n : Int))
          | '-' :: r => if r = [] then none else (digitsVal 10 r).map (fun n => -(n : Int))
          | r => if r = [] then none else (digitsVal 10 r).map (fun n => (n : Int))
      let base : Rat := (m : Rat) / ((10 ^ fracLen : Nat) : Rat)
      let scaled : Rat :=
        if 0 ≤ e then base * ((10 ^ e.toNat : Nat) : Rat)
        else base / ((10 ^ (-e).toNat : Nat) : Rat)
      some (if neg then -scaled else scaled)

/-- Model of the external `strings.Replace(s, "\r", "", -1)` used on raw
string literals: every carriage return is removed. -/
def stripCR (cs : List Char) : List Char :=
  cs.filter (· ≠ '\r')

/-- Decode one escape or plain character of a quoted literal body, given
the quote character; returns the code point and the remaining characters.
Part of the model of the external `strconv` unquoting routines. -/
def unquoteOneChar (quote : Char) (cs : List Char) : Option (Nat × List Char) :=
  match cs with
  | [] => none
  | '\\' :: es =>
    match es with
    | 'a' :: r => some (0x07, r)
    | 'b' :: r => some (0x08, r)
    | 'f' :: r => some (0x0C, r)
    | 'n' :: r => some (0x0A, r)
    | 'r' :: r => some (0x0D, r)
    | 't' :: r => some (0x09, r)
    | 'v' :: r => some (0x0B, r)
    | '\\' :: r => some (0x5C, r)
    | 'x' :: a :: b :: r => (digitsVal 16 [a, b]).map (·, r)
    | 'u' :: a :: b :: c :: d :: r => do
      let n ← digitsVal 16 [a, b, c, d]
      if n < 0x110000 ∧ ¬(0xD800 ≤ n ∧ n < 0xE000) then some (n, r) else none
    | 'U' :: a :: b :: c :: d :: e :: f :: g :: h :: r => do
      let n ← digitsVal 16 [a, b, c, d, e, f, g, h]
      if n < 0x110000 ∧ ¬(0xD800 ≤ n ∧ n < 0xE000) then some (n, r) else none
    | a :: b :: c :: r =>
      if '0' ≤ a ∧ a ≤ '7' then do
        let n ← digitsVal 8 [a, b, c]
        if n < 256 then some (n, r) else none
      else if a = quote then some (a.toNat, b :: c :: r)
      else none
    | [a] => if a = quote then some (a.toNat, []) else none
    | [a, b] =>
      if a = quote then some (a.toNat, [b]) else none
    | [] => none
  | c :: r => if c = quote ∨ c = '\n' then none else some (c.toNat, r)

/-- Body of a double-quoted literal decoded character by character. -/
def unquoteBody (fuel : Nat) (cs : List Char) : Option (List Char) :=
  match fuel with
  | 0 => none
  | fuel + 1 =>
    match cs with
    | [] => some []
    | _ =>
      match unquoteOneChar '"' cs with
      | none => none
      | some (n, rest) =>
        match unquoteBody fuel rest with
        | none => none
        | some tail =>
          if n.isValidChar then some (Char.ofNat n :: tail) else none

/-- Model of the external `strconv.Unquote` restricted to the
double-quoted form the lexer produces: the text must start and finish with
`"` and its body must decode escape by escape. -/
def goUnquote (s : String) : Option String :=
  match s.data with
  | '"' :: rest =>
    match rest.getLast? with
    | some '"' =>
      match unquoteBody (rest.length + 1) rest.dropLast with
      | some cs => some ⟨cs⟩
      | none => none
    | _ => none
  | _ => none

/-- Model of the external `strconv.UnquoteChar(text, '\'')` as used on the
tail of a rune literal: decode one character or escape (the caller ignores
the remaining tail, as the source does). -/
def goUnquoteChar (cs : List Char) : Option Nat :=
  match unquoteOneChar '\'' cs with
  | some (n, _) => some n
  | none => none

/-! ### AST node model (`src/ast/ast.go`, the `CompositeLiteral`-bearing
version of the file) -/

/-- An `Identifier`: an unqualified name with its span. -/
structure Ident where
  name : String
  sp : Span
deriving DecidableEq, Repr

mutual

/-- The expression node variants of `src/ast/ast.go`. Nilable Go fields
(`CompositeLiteral.Type`, the slice bounds, `TypeAssertion.Type`) are
`Option`s. -/
inductive Expression where
  | ident (i : Ident)
  | intLit (value : Int) (sp : Span)
  | floatLit (value : Rat) (sp : Span)
  | imaginaryLit (value : Rat) (sp : Span)
  | runeLit (value : Nat) (sp : Span)
  | stringLit (value : String) (sp : Span)
  | compositeLit (typ : Option GoType) (elements : List Element)
      (openLoc closeLoc : Location)
  | indexExpr (expr idx : Expression) (openLoc closeLoc : Location)
  | sliceExpr (expr : Expression) (low high maxB : Option Expression)
      (openLoc closeLoc : Location)
  | typeAssertion (expr : Expression) (typ : Option GoType)
      (dotLoc closeLoc : Location)
  | selector (expr : Expression) (selection : Ident) (dotLoc : Location)
  | call (function : Expression) (arguments : List Expression)
      (dotDotDot : Bool) (openLoc closeLoc : Location)
  | binaryOp (op : Tok) (opLoc : Location) (left right : Expression)
  | unaryOp (op : Tok) (opLoc : Location) (operand : Expression)

/-- An `Element` of a composite literal: an optional key and a value. -/
inductive Element where
  | mk (key : Option Expression) (value : Expression)

/-- The type node variants. The interface `Type` from the source becomes a
closed inductive (`GoType`, since `Type` is taken in Lean). Struct-field
tags (`*StringLiteral`) are stored as the `Expression.stringLit` the string
parser returns. -/
inductive GoType where
  | typeName (pkg name : String) (sp : Span)
  | structType (fields : List FieldDecl) (keywordLoc closeLoc : Location)
  | interfaceType (methods : List MethodItem) (keywordLoc closeLoc : Location)
  | functionType (sig : Signature)
  | channelType (send receive : Bool) (typ : GoType) (startLoc : Location)
  | mapType (key typ : GoType) (mapLoc : Location)
  | arrayType (size : Option Expression) (typ : GoType) (openLoc : Location)
  | sliceType (typ : GoType) (openLoc : Location)
  | pointerType (typ : GoType) (starLoc : Location)

/-- A struct `FieldDecl`: optional field names, the field type, and an
optional tag. -/
inductive FieldDecl where
  | mk (identifiers : List Ident) (typ : GoType) (tag : Option Expression)

/-- An entry of `InterfaceType.Methods` (a `[]Node` in the source): either
a `*Method` or an embedded interface `*TypeName`. -/
inductive MethodItem where
  | method (name : Ident) (sig : Signature)
  | embedded (t : GoType)

/-- A `Signature`. The two `ast.go` versions in the repository disagree on
the `Result` field (`ParameterList` value vs. nilable interface holding a
`*ParameterList` or a `Type`); `SigResult` covers both usages. -/
inductive Signature where
  | mk (parameters : ParameterList) (result : SigResult)

/-- The result slot of a `Signature`: absent (nil), a parameter list, or a
bare type. -/
inductive SigResult where
  | absent
  | params (pl : ParameterList)
  | typ (t : GoType)

/-- A parenthesized `ParameterList`. -/
inductive ParameterList where
  | mk (parameters : List ParameterDecl) (openLoc closeLoc : Location)

/-- A `ParameterDecl`: a shared type, the names declared with it (possibly
none), and the variadic marker. -/
inductive ParameterDecl where
  | mk (typ : GoType) (identifiers : List Ident) (dotDotDot : Bool)

end

deriving instance Repr for Expression, Element, GoType, FieldDecl,
  MethodItem, Signature, SigResult, ParameterList, ParameterDecl

/-- The parameters of a `ParameterList`. -/
def ParameterList.parameters : ParameterList → List ParameterDecl
  | .mk ps _ _ => ps

/-- The open-parenthesis location of a `ParameterList`. -/
def ParameterList.openLoc : ParameterList → Location
  | .mk _ o _ => o

/-- The close-parenthesis location of a `ParameterList`. -/
def ParameterList.closeLoc : ParameterList → Location
  | .mk _ _ c => c

/-! ### `Start` and `End` (`src/ast/ast.go`)

`Start` and `End` return the locations of the first and last tokens that
induced a node. A Go nil-pointer dereference (reachable in
`CompositeLiteral.Start` when `Type` is nil, and in `Signature.End` of the
expression grammar's AST when the result is nil) is modelled by `none`;
every other case is `some`. -/

/-- `Start()` for expression nodes. `CompositeLiteral.Start` is embedded
exactly as written in the source: when `Type` is non-nil it returns the
open-brace location, and when `Type` is nil it dereferences the nil `Type`
(modelled by `none`). -/
def Expression.startLoc? : Expression → Option Location
  | .ident i => some i.sp.start
  | .intLit _ sp => some sp.start
  | .floatLit _ sp => some sp.start
  | .imaginaryLit _ sp => some sp.start
  | .runeLit _ sp => some sp.start
  | .stringLit _ sp => some sp.start
  | .compositeLit typ _ openLoc _ =>
    match typ with
    | some _ => some openLoc
    | none => none
  | .indexExpr e _ _ _ => e.startLoc?
  | .sliceExpr e _ _ _ _ _ => e.startLoc?
  | .typeAssertion e _ _ _ => e.startLoc?
  | .selector e _ _ => e.startLoc?
  | .call f _ _ _ _ => f.startLoc?
  | .binaryOp _ _ l _ => l.startLoc?
  | .unaryOp _ opLoc _ => some opLoc

/-- `End()` for expression nodes. -/
def Expression.endLoc? : Expression → Option Location
  | .ident i => some i.sp.endLoc
  | .intLit _ sp => some sp.endLoc
  | .floatLit _ sp => some sp.endLoc
  | .imaginaryLit _ sp => some sp.endLoc
  | .runeLit _ sp => some sp.endLoc
  | .stringLit _ sp => some sp.endLoc
  | .compositeLit _ _ _ closeLoc => some closeLoc
  | .indexExpr _ _ _ closeLoc => some closeLoc
  | .sliceExpr _ _ _ _ _ closeLoc => some closeLoc
  | .typeAssertion _ _ _ closeLoc => some closeLoc
  | .selector _ sel _ => some sel.sp.endLoc
  | .call _ _ _ _ closeLoc => some closeLoc
  | .binaryOp _ _ _ r => r.endLoc?
  | .unaryOp _ _ operand => operand.endLoc?

/-- `Start()` for type nodes (total: every variant stores its start). -/
def GoType.startL : GoType → Location
  | .typeName _ _ sp => sp.start
  | .structType _ keywordLoc _ => keywordLoc
  | .interfaceType _ keywordLoc _ => keywordLoc
  | .functionType (.mk pl _) => pl.openLoc
  | .channelType _ _ _ startLoc => startLoc
  | .mapType _ _ mapLoc => mapLoc
  | .arrayType _ _ openLoc => openLoc
  | .sliceType _ openLoc => openLoc
  | .pointerType _ starLoc => starLoc

mutual

/-- `End()` for type nodes. -/
def GoType.endLoc? : GoType → Option Location
  | .typeName _ _ sp => some sp.endLoc
  | .structType _ _ closeLoc => some closeLoc
  | .interfaceType _ _ closeLoc => some closeLoc
  | .functionType sig => Signature.endLoc? sig
  | .channelType _ _ typ _ => GoType.endLoc? typ
  | .mapType _ typ _ => GoType.endLoc? typ
  | .arrayType _ typ _ => GoType.endLoc? typ
  | .sliceType typ _ => GoType.endLoc? typ
  | .pointerType typ _ => GoType.endLoc? typ

/-- `End()` for a `Signature`: the end of its result. An absent result is
the expression-grammar AST's nil `Result`, whose `End` dereference is
modelled by `none`. -/
def Signature.endLoc? : Signature → Option Location
  | .mk _ .absent => none
  | .mk _ (.params pl) => some pl.closeLoc
  | .mk _ (.typ t) => GoType.endLoc? t

end

/-! ### Grammar tables and leaf parsers shared by `src/ast/grammar.go` and
`src/unnamed/part_001` (their texts coincide for these functions) -/

/-- The binary-operator precedence table for the precedence-climbing
algorithm (`||`=1, `&&`=2, comparisons=3, `+ - | ^`=4,
`* / % << >> & &^`=5); `none` for non-operators. -/
def precedence (t : Tok) : Option Nat :=
  match t with
  | .OrOr => some 1
  | .AndAnd => some 2
  | .EqualEqual => some 3
  | .BangEqual => some 3
  | .Less => some 3
  | .LessEqual => some 3
  | .Greater => some 3
  | .GreaterEqual => some 3
  | .Plus => some 4
  | .Minus => some 4
  | .Or => some 4
  | .Carrot => some 4
  | .Star => some 5
  | .Divide => some 5
  | .Percent => some 5
  | .LessLess => some 5
  | .GreaterGreater => some 5
  | .And => some 5
  | .AndCarrot => some 5
  | _ => none

/-- The set of unary operators (`+ - ! ^ * & <-`). -/
def unaryTok (t : Tok) : Bool :=
  match t with
  | .Plus => true
  | .Minus => true
  | .Bang => true
  | .Carrot => true
  | .Star => true
  | .And => true
  | .LessMinus => true
  | _ => false

/-- The set of tokens that start a type (`typeFirst`). -/
def typeFirst (t : Tok) : Bool :=
  match t with
  | .Identifier => true
  | .Star => true
  | .OpenBracket => true
  | .StructKw => true
  | .FuncKw => true
  | .InterfaceKw => true
  | .MapKw => true
  | .ChanKw => true
  | .LessMinus => true
  | .OpenParen => true
  | _ => false

/-- `parseIdentifier`: expect an identifier token and build the node from
its text and span. -/
def parseIdentifier (p : Parser) : Except PErr (Ident × Parser) := do
  p.expectTok .Identifier
  .ok (⟨p.text, p.span⟩, p.next)

/-- `parseIntegerLiteral`: decode the token text with `SetString(text, 0)`;
a failed decode (e.g. the malformed octal `08` the lexer lets through)
raises a `MalformedLiteral`. -/
def parseIntegerLiteral (p : Parser) : Except PErr (Expression × Parser) :=
  match bigIntSetString0 p.text with
  | some v => .ok (.intLit v p.span, p.next)
  | none => .error (.unwind (.mal ⟨"integer literal", p.text, p.lexStart, p.lexEnd⟩))

/-- `parseFloatLiteral`: decode the token text with `Rat.SetString`. -/
def parseFloatLiteral (p : Parser) : Except PErr (Expression × Parser) :=
  match bigRatSetString p.text with
  | some v => .ok (.floatLit v p.span, p.next)
  | none => .error (.unwind (.mal ⟨"float literal", p.text, p.lexStart, p.lexEnd⟩))

/-- `parseImaginaryLiteral`: the text must non-trivially end in `i`; the
remainder decodes with `Rat.SetString`. A missing `i` suffix is an internal
string panic, a failed decode a `MalformedLiteral`. -/
def parseImaginaryLiteral (p : Parser) : Except PErr (Expression × Parser) :=
  let text := p.text
  match text.data.getLast? with
  | some 'i' =>
    match bigRatSetString ⟨text.data.dropLast⟩ with
    | some v => .ok (.imaginaryLit v p.span, p.next)
    | none => .error (.unwind (.mal ⟨"imaginary literal", text, p.lexStart, p.lexEnd⟩))
  | _ => pmPanic ("bad imaginary literal: " ++ text)

/-- `parseStringLiteral`: a text shorter than two characters is an internal
string panic; a backquoted raw literal takes its interior with every `\r`
removed; otherwise `strconv.Unquote` decodes it and a failure there is the
internal string panic again. -/
def parseStringLiteral (p : Parser) : Except PErr (Expression × Parser) :=
  let text := p.text
  if text.length < 2 then pmPanic ("bad string literal: " ++ text)
  else if text.data.head? = some '`' then
    .ok (.stringLit ⟨stripCR ((text.data.drop 1).dropLast)⟩ p.span, p.next)
  else
    match goUnquote text with
    | some v => .ok (.stringLit v p.span, p.next)
    | none => pmPanic ("bad string literal: " ++ text)

/-- `parseRuneLiteral`: a text shorter than three characters is an internal
string panic; otherwise `strconv.UnquoteChar` decodes the tail and a
failure there (e.g. a surrogate half) raises a `MalformedLiteral`. -/
def parseRuneLiteral (p : Parser) : Except PErr (Expression × Parser) :=
  let text := p.text
  if text.length < 3 then pmPanic ("bad rune literal: " ++ text)
  else
    match goUnquoteChar (text.data.drop 1) with
    | some r => .ok (.runeLit r p.span, p.next)
    | none => .error (.unwind (.mal ⟨"rune literal", text, p.lexStart, p.lexEnd⟩))

/-- `parseTypeName`: an identifier, optionally qualified by a package name
via a dot. The span stays that of the first identifier, as in the source. -/
def parseTypeName (p : Parser) : Except PErr (GoType × Parser) := do
  p.expectTok .Identifier
  let name := p.text
  let sp := p.span
  let p := p.next
  if p.tok = .Dot then do
    let p := p.next
    p.expectTok .Identifier
    .ok (.typeName name p.text sp, p.next)
  else
    .ok (.typeName "" name sp, p)

/-- `typeNameDecls`: turn identifiers provisionally collected for a
parameter list into bare `TypeName` parameter declarations. -/
def typeNameDecls (idents : List Ident) : List ParameterDecl :=
  idents.map (fun id => .mk (.typeName "" id.name id.sp) [] false)

/-- Write the caller-supplied open-bracket location into a freshly parsed
`Slice` node (`parseSliceHighMax` leaves `openLoc` unset for the caller). -/
def setSliceOpen (e : Expression) (openLoc : Location) : Expression :=
  match e with
  | .sliceExpr x lo hi mx _ closeLoc => .sliceExpr x lo hi mx openLoc closeLoc
  | e => e

/-! ### The expression grammar of `src/ast/grammar.go`

Every function takes a fuel argument standing in for Go's unbounded
recursion; recursive calls and loop iterations consume one unit. The Go
`for` loops become `…Loop` helper functions. -/

namespace EG

mutual

/-- `parseType` of `src/ast/grammar.go`: types are incomplete there —
struct and interface types panic `"unimplemented"`. -/
def parseType (fuel : Nat) (p : Parser) : Except PErr (GoType × Parser) :=
  match fuel with
  | 0 => .error .outOfFuel
  | f + 1 =>
    match p.tok with
    | .Identifier => parseTypeName p
    | .Star => do
      let starLoc := p.lexStart
      let p := p.next
      let (t, p) ← parseType f p
      .ok (.pointerType t starLoc, p)
    | .OpenBracket => parseArrayOrSliceType f p
    | .StructKw => pmPanic "unimplemented"
    | .FuncKw => do
      let p := p.next
      let (sig, p) ← parseSignature f p
      .ok (.functionType sig, p)
    | .InterfaceKw => pmPanic "unimplemented"
    | .MapKw => parseMapType f p
    | .ChanKw => parseChannelType f p
    | .LessMinus => parseChannelType f p
    | .OpenParen => do
      let p := p.next
      let (t, p) ← parseType f p
      p.expectTok .CloseParen
      .ok (t, p.next)
    | _ =>
      pmErr p [tokStr .Identifier, tokStr .Star, tokStr .OpenBracket,
        tokStr .StructKw, tokStr .FuncKw, tokStr .InterfaceKw, tokStr .MapKw,
        tokStr .ChanKw, tokStr .LessMinus, tokStr .OpenParen]

/-- `parseSignature`: a parameter list, then an optional result — a second
parameter list or a bare type. -/
def parseSignature (fuel : Nat) (p : Parser) : Except PErr (Signature × Parser) :=
  match fuel with
  | 0 => .error .outOfFuel
  | f + 1 => do
    let (params, p) ← parseParameterList f p
    if p.tok = .OpenParen then do
      let (results, p) ← parseParameterList f p
      .ok (.mk params (.params results), p)
    else if typeFirst p.tok then do
      let (t, p) ← parseType f p
      .ok (.mk params (.typ t), p)
    else
      .ok (.mk params .absent, p)

/-- `parseParameterList`: the opening parenthesis, the tail, and the
closing parenthesis. -/
def parseParameterList (fuel : Nat) (p : Parser) : Except PErr (ParameterList × Parser) :=
  match fuel with
  | 0 => .error .outOfFuel
  | f + 1 => do
    p.expectTok .OpenParen
    let pl : ParameterList := .mk [] p.lexStart ⟨0, 0⟩
    let p := p.next
    let (pl, p) ← parseParameterListTail f pl [] p
    p.expectTok .CloseParen
    .ok (ParameterList.mk pl.parameters pl.openLoc p.lexStart, p.next)

/-- `parseParameterListTail`: commit to an all-bare-types or an
all-identifier-led interpretation of the parameter list, holding
provisional identifiers until the decision is forced. -/
def parseParameterListTail (fuel : Nat) (pl : ParameterList) (idents : List Ident)
    (p : Parser) : Except PErr (ParameterList × Parser) :=
  match fuel with
  | 0 => .error .outOfFuel
  | f + 1 =>
    if p.tok = .CloseParen then
      .ok (ParameterList.mk (typeNameDecls idents) pl.openLoc p.lexStart, p)
    else if p.tok = .Identifier then do
      let (id, p) ← parseIdentifier p
      if p.tok = .Comma then
        parseParameterListTail f pl (idents ++ [id]) p.next
      else if p.tok = .CloseParen then
        parseParameterListTail f pl (idents ++ [id]) p
      else if p.tok = .Dot then do
        let p := p.next
        p.expectTok .Identifier
        let t : GoType := .typeName id.name p.text ⟨id.sp.start, p.lexEnd⟩
        let p := p.next
        let d : ParameterDecl := .mk t [] false
        let pl := ParameterList.mk (typeNameDecls idents ++ [d]) pl.openLoc pl.closeLoc
        parseTypeParameterList f pl p
      else do
        let idents := idents ++ [id]
        let (ddd, p) := if p.tok = .DotDotDot then (true, p.next) else (false, p)
        let (t, p) ← parseType f p
        let d : ParameterDecl := .mk t idents ddd
        let pl := ParameterList.mk [d] pl.openLoc pl.closeLoc
        if ddd then .ok (pl, p) else parseDeclParameterList f pl p
    else if p.tok = .DotDotDot then do
      let p := p.next
      let (t, p) ← parseType f p
      let d : ParameterDecl := .mk t [] true
      .ok (ParameterList.mk (typeNameDecls idents ++ [d]) pl.openLoc pl.closeLoc, p)
    else if typeFirst p.tok then do
      let (t, p) ← parseType f p
      let d : ParameterDecl := .mk t [] false
      let pl := ParameterList.mk (typeNameDecls idents ++ [d]) pl.openLoc pl.closeLoc
      parseTypeParameterList f pl p
    else
      pmErr p [")", "...", "identifier", "type"]

/-- `parseTypeParameterList`: the remaining comma-separated bare types of
an identifier-less parameter list (trailing comma allowed). -/
def parseTypeParameterList (fuel : Nat) (pl : ParameterList) (p : Parser) :
    Except PErr (ParameterList × Parser) :=
  match fuel with
  | 0 => .error .outOfFuel
  | f + 1 =>
    if p.tok = .CloseParen then .ok (pl, p)
    else do
      p.expectTok .Comma
      let p := p.next
      if p.tok = .CloseParen then .ok (pl, p)
      else do
        let (ddd, p) := if p.tok = .DotDotDot then (true, p.next) else (false, p)
        let (t, p) ← parseType f p
        let pl := ParameterList.mk (pl.parameters ++ [.mk t [] ddd]) pl.openLoc pl.closeLoc
        if ddd then .ok (pl, p) else parseTypeParameterList f pl p

/-- `parseDeclParameterList`: the remaining comma-separated identifier-led
declarations of an identifier-led parameter list (trailing comma
allowed). -/
def parseDeclParameterList (fuel : Nat) (pl : ParameterList) (p : Parser) :
    Except PErr (ParameterList × Parser) :=
  match fuel with
  | 0 => .error .outOfFuel
  | f + 1 =>
    if p.tok = .CloseParen then .ok (pl, p)
    else do
      p.expectTok .Comma
      let p := p.next
      if p.tok = .CloseParen then .ok (pl, p)
      else do
        let (ids, p) ← parseDeclParameterIdents f [] p
        let (ddd, p) := if p.tok = .DotDotDot then (true, p.next) else (false, p)
        let (t, p) ← parseType f p
        let pl := ParameterList.mk (pl.parameters ++ [.mk t ids ddd]) pl.openLoc pl.closeLoc
        parseDeclParameterList f pl p

/-- The identifier-gathering `for` loop inside `parseDeclParameterList`. -/
def parseDeclParameterIdents (fuel : Nat) (acc : List Ident) (p : Parser) :
    Except PErr (List Ident × Parser) :=
  match fuel with
  | 0 => .error .outOfFuel
  | f + 1 => do
    let (id, p) ← parseIdentifier p
    let acc := acc ++ [id]
    if p.tok = .Comma then parseDeclParameterIdents f acc p.next
    else .ok (acc, p)

/-- `parseChannelType`: `chan T`, `<-chan T`, or `chan<- T`. -/
def parseChannelType (fuel : Nat) (p : Parser) : Except PErr (GoType × Parser) :=
  match fuel with
  | 0 => .error .outOfFuel
  | f + 1 => do
    let startLoc := p.lexStart
    let (send, p) := if p.tok = .LessMinus then (false, p.next) else (true, p)
    p.expectTok .ChanKw
    let p := p.next
    let (receive, p) := if send ∧ p.tok = .LessMinus then (false, p.next) else (true, p)
    let (t, p) ← parseType f p
    .ok (.channelType send receive t startLoc, p)

/-- `parseMapType`: `map[K]V`. -/
def parseMapType (fuel : Nat) (p : Parser) : Except PErr (GoType × Parser) :=
  match fuel with
  | 0 => .error .outOfFuel
  | f + 1 => do
    p.expectTok .MapKw
    let mapLoc := p.lexStart
    let p := p.next
    p.expectTok .OpenBracket
    let p := p.next
    let (key, p) ← parseType f p
    p.expectTok .CloseBracket
    let p := p.next
    let (t, p) ← parseType f p
    .ok (.mapType key t mapLoc, p)

/-- `parseArrayOrSliceType` of `src/ast/grammar.go` (no `...` sizes
here): `[]T` or `[N]T`. -/
def parseArrayOrSliceType (fuel : Nat) (p : Parser) : Except PErr (GoType × Parser) :=
  match fuel with
  | 0 => .error .outOfFuel
  | f + 1 => do
    p.expectTok .OpenBracket
    let openLoc := p.lexStart
    let p := p.next
    if p.tok = .CloseBracket then do
      let p := p.next
      let (t, p) ← parseType f p
      .ok (.sliceType t openLoc, p)
    else do
      let (size, p) ← parseExpression f p
      p.expectTok .CloseBracket
      let p := p.next
      let (t, p) ← parseType f p
      .ok (.arrayType (some size) t openLoc, p)

/-- `parseExpression`: precedence climbing from minimum precedence 1. -/
def parseExpression (fuel : Nat) (p : Parser) : Except PErr (Expression × Parser) :=
  match fuel with
  | 0 => .error .outOfFuel
  | f + 1 => parseBinaryExpr f 1 p

/-- `parseBinaryExpr`: a unary expression, then the operator-folding
loop. -/
def parseBinaryExpr (fuel : Nat) (prec : Nat) (p : Parser) :
    Except PErr (Expression × Parser) :=
  match fuel with
  | 0 => .error .outOfFuel
  | f + 1 => do
    let (left, p) ← parseUnaryExpr f p
    parseBinaryExprLoop f prec left p

/-- The `for` loop of `parseBinaryExpr`: while the current token is an
operator of at least the minimum precedence, recurse on the right with the
precedence raised by one and fold left-associatively. -/
def parseBinaryExprLoop (fuel : Nat) (prec : Nat) (left : Expression) (p : Parser) :
    Except PErr (Expression × Parser) :=
  match fuel with
  | 0 => .error .outOfFuel
  | f + 1 =>
    match precedence p.tok with
    | none => .ok (left, p)
    | some pr =>
      if pr < prec then .ok (left, p)
      else do
        let op := p.tok
        let opLoc := p.lexStart
        let p := p.next
        let (right, p) ← parseBinaryExpr f (pr + 1) p
        parseBinaryExprLoop f prec (.binaryOp op opLoc left right) p

/-- `parseUnaryExpr`: a prefix operator recurses; anything else falls
through to primary-expression parsing. -/
def parseUnaryExpr (fuel : Nat) (p : Parser) : Except PErr (Expression × Parser) :=
  match fuel with
  | 0 => .error .outOfFuel
  | f + 1 =>
    if unaryTok p.tok then do
      let op := p.tok
      let opLoc := p.lexStart
      let p := p.next
      let (operand, p) ← parseUnaryExpr f p
      .ok (.unaryOp op opLoc operand, p)
    else parsePrimaryExpr f p

/-- `parsePrimaryExpr`: an operand, then chained postfix
index/slice/call/selector/type-assertion operators. -/
def parsePrimaryExpr (fuel : Nat) (p : Parser) : Except PErr (Expression × Parser) :=
  match fuel with
  | 0 => .error .outOfFuel
  | f + 1 => do
    let (left, p) ← parseOperand f p
    parsePrimaryExprLoop f left p

/-- The postfix-operator `for` loop of `parsePrimaryExpr`. -/
def parsePrimaryExprLoop (fuel : Nat) (left : Expression) (p : Parser) :
    Except PErr (Expression × Parser) :=
  match fuel with
  | 0 => .error .outOfFuel
  | f + 1 =>
    match p.tok with
    | .OpenBracket => do
      let (left, p) ← parseSliceOrIndex f left p
      parsePrimaryExprLoop f left p
    | .OpenParen => do
      let (left, p) ← parseCall f left p
      parsePrimaryExprLoop f left p
    | .Dot => do
      let (left, p) ← parseSelectorOrTypeAssertion f left p
      parsePrimaryExprLoop f left p
    | _ => .ok (left, p)

/-- `parseSliceOrIndex`: after `[`, an immediate `:` is a slice with an
absent low bound; otherwise one expression, then `]` (index) or `:`
(slice); anything else expects `]` or `:`. -/
def parseSliceOrIndex (fuel : Nat) (left : Expression) (p : Parser) :
    Except PErr (Expression × Parser) :=
  match fuel with
  | 0 => .error .outOfFuel
  | f + 1 => do
    p.expectTok .OpenBracket
    let openLoc := p.lexStart
    let p := p.next
    if p.tok = .Colon then do
      let (sl, p) ← parseSliceHighMax f left none p
      .ok (setSliceOpen sl openLoc, p)
    else do
      let (e, p) ← parseExpression f p
      if p.tok = .CloseBracket then
        .ok (.indexExpr left e openLoc p.lexEnd, p.next)
      else if p.tok = .Colon then do
        let (sl, p) ← parseSliceHighMax f left (some e) p
        .ok (setSliceOpen sl openLoc, p)
      else
        pmErr p [tokStr .CloseBracket, tokStr .Colon]

/-- `parseSliceHighMax`: the remainder of a slice from the colon after the
low bound; a high bound may follow, and after it a `:` introduces the max
bound. The returned node's `openLoc` is set by the caller. -/
def parseSliceHighMax (fuel : Nat) (left : Expression) (low : Option Expression)
    (p : Parser) : Except PErr (Expression × Parser) :=
  match fuel with
  | 0 => .error .outOfFuel
  | f + 1 => do
    p.expectTok .Colon
    let p := p.next
    if p.tok ≠ .CloseBracket then do
      let (high, p) ← parseExpression f p
      if p.tok = .Colon then do
        let p := p.next
        let (maxB, p) ← parseExpression f p
        p.expectTok .CloseBracket
        .ok (.sliceExpr left low (some high) (some maxB) ⟨0, 0⟩ p.lexStart, p.next)
      else do
        p.expectTok .CloseBracket
        .ok (.sliceExpr left low (some high) none ⟨0, 0⟩ p.lexStart, p.next)
    else do
      p.expectTok .CloseBracket
      .ok (.sliceExpr left low none none ⟨0, 0⟩ p.lexStart, p.next)

/-- `parseCall` of `src/ast/grammar.go`: `(`, an expression list (this
version always parses at least one argument), an optional `...`, `)`. -/
def parseCall (fuel : Nat) (left : Expression) (p : Parser) :
    Except PErr (Expression × Parser) :=
  match fuel with
  | 0 => .error .outOfFuel
  | f + 1 => do
    p.expectTok .OpenParen
    let openLoc := p.lexStart
    let p := p.next
    let (args, p) ← parseExpressionList f p
    let (ddd, p) := if p.tok = .DotDotDot then (true, p.next) else (false, p)
    p.expectTok .CloseParen
    .ok (.call left args ddd openLoc p.lexEnd, p.next)

/-- `parseExpressionList`: one or more comma-separated expressions. -/
def parseExpressionList (fuel : Nat) (p : Parser) :
    Except PErr (List Expression × Parser) :=
  match fuel with
  | 0 => .error .outOfFuel
  | f + 1 => parseExpressionListLoop f [] p

/-- The accumulating `for` loop of `parseExpressionList`. -/
def parseExpressionListLoop (fuel : Nat) (acc : List Expression) (p : Parser) :
    Except PErr (List Expression × Parser) :=
  match fuel with
  | 0 => .error .outOfFuel
  | f + 1 => do
    let (e, p) ← parseExpression f p
    let acc := acc ++ [e]
    if p.tok = .Comma then parseExpressionListLoop f acc p.next
    else .ok (acc, p)

/-- `parseOperand` of `src/ast/grammar.go`: identifiers (possibly starting
a selector/type-assertion chain), the five literal kinds, and parenthesized
expressions; composite and function literals are absent from this version
of the grammar. Anything else expects an operand. -/
def parseOperand (fuel : Nat) (p : Parser) : Except PErr (Expression × Parser) :=
  match fuel with
  | 0 => .error .outOfFuel
  | f + 1 =>
    match p.tok with
    | .Identifier => do
      let (id, p) ← parseIdentifier p
      if p.tok = .Dot then parseSelectorOrTypeAssertion f (.ident id) p
      else .ok (.ident id, p)
    | .IntegerLiteral => parseIntegerLiteral p
    | .FloatLiteral => parseFloatLiteral p
    | .ImaginaryLiteral => parseImaginaryLiteral p
    | .RuneLiteral => parseRuneLiteral p
    | .StringLiteral => parseStringLiteral p
    | .OpenParen => do
      let p := p.next
      let (e, p) ← parseExpression f p
      p.expectTok .CloseParen
      .ok (e, p.next)
    | _ => pmErr p ["operand"]

/-- `parseSelectorOrTypeAssertion`: after `.`, a parenthesized type is a
type assertion and an identifier extends the selector chain. -/
def parseSelectorOrTypeAssertion (fuel : Nat) (left : Expression) (p : Parser) :
    Except PErr (Expression × Parser) :=
  match fuel with
  | 0 => .error .outOfFuel
  | f + 1 => do
    p.expectTok .Dot
    let dotLoc := p.lexStart
    let p := p.next
    match p.tok with
    | .OpenParen => do
      let p := p.next
      let (t, p) ← parseType f p
      p.expectTok .CloseParen
      .ok (.typeAssertion left (some t) dotLoc p.lexStart, p.next)
    | .Identifier => do
      let (sel, p) ← parseIdentifier p
      let left := Expression.selector left sel dotLoc
      if p.tok = .Dot then parseSelectorOrTypeAssertion f left p
      else .ok (left, p)
    | _ => pmErr p [tokStr .OpenParen, tokStr .Identifier]

end

/-- The observable outcome of the top-level `Parse` of
`src/ast/grammar.go`: a root with a nil error, a returned `*SyntaxError`
or `*MalformedLiteral` (no root), a re-raised panic that escapes `Parse`,
or fuel exhaustion (embedding artifact). -/
inductive Result where
  | ok (root : Expression)
  | errSyn (e : SynErr)
  | errMal (e : MalformedLit)
  | panicked (msg : String)
  | outOfFuel
deriving Repr

/-- `Parse` of `src/ast/grammar.go`: run `parseExpression` and recover —
a `*SyntaxError` or `*MalformedLiteral` becomes the returned error, any
other panic is re-raised. -/
def Parse (fuel : Nat) (p : Parser) : Result :=
  match parseExpression fuel p with
  | .ok (e, _) => .ok e
  | .error (.unwind (.syn e)) => .errSyn e
  | .error (.unwind (.mal e)) => .errMal e
  | .error (.unwind (.strPanic s)) => .panicked s
  | .error .outOfFuel => .outOfFuel

end EG

/-! ### The declarations grammar of `src/unnamed/part_001`

A later revision of the grammar: it parses declarations at top level,
implements struct/interface types and composite literals, and panics
`"unimplemented"` on `var` declarations. -/

/-- Modelled from the spec: `p.comments()` returns the comment lines the
lexer collected immediately before the current position; the embedded
token streams carry none. -/
def Parser.comments (_ : Parser) : List String := []

/-- A top-level declaration node produced by the declarations grammar:
a `ConstSpec` or a `TypeSpec` (`src/ast/ast.go`), with its preceding
comment lines. -/
inductive DeclNode where
  | constSpec (comments : List String) (names : List Ident)
      (typ : Option GoType) (values : List Expression)
  | typeSpec (comments : List String) (name : Ident) (typ : GoType)
deriving Repr

/-- Overwrite a declaration's comments (the `cs.comments = cmnts`
assignments in `parseConstDecl`/`parseTypeDecl`). -/
def DeclNode.withComments : DeclNode → List String → DeclNode
  | .constSpec _ names typ values, cs => .constSpec cs names typ values
  | .typeSpec _ name typ, cs => .typeSpec cs name typ

/-- Install the parsed type into a freshly parsed literal value
(`lit.Type = typ` in `parseCompositeLiteral`). -/
def setCompositeType (e : Expression) (t : GoType) : Expression :=
  match e with
  | .compositeLit _ els o c => .compositeLit (some t) els o c
  | e => e

namespace DG

mutual

/-- `parseDeclarations`: `type` and `const` declarations parse; `var`
panics `"unimplemented"`; anything else expects `type`, `const` or
`var`. -/
def parseDeclarations (fuel : Nat) (p : Parser) :
    Except PErr (List DeclNode × Parser) :=
  match fuel with
  | 0 => .error .outOfFuel
  | f + 1 =>
    match p.tok with
    | .TypeKw => parseTypeDecl f p
    | .ConstKw => parseConstDecl f p
    | .VarKw => pmPanic "unimplemented"
    | _ => pmErr p ["type", "const", "var"]

/-- `parseConstDecl`: a single `ConstSpec` or a parenthesized group. -/
def parseConstDecl (fuel : Nat) (p : Parser) :
    Except PErr (List DeclNode × Parser) :=
  match fuel with
  | 0 => .error .outOfFuel
  | f + 1 => do
    p.expectTok .ConstKw
    let cmnts := p.comments
    let p := p.next
    if p.tok ≠ .OpenParen then do
      let (cs, p) ← parseConstSpec f p
      .ok ([cs.withComments cmnts], p)
    else
      parseConstDeclLoop f [] p.next

/-- The grouped-spec `for` loop of `parseConstDecl` (specs separated by
optional semicolons, closed by `)`). -/
def parseConstDeclLoop (fuel : Nat) (acc : List DeclNode) (p : Parser) :
    Except PErr (List DeclNode × Parser) :=
  match fuel with
  | 0 => .error .outOfFuel
  | f + 1 =>
    if p.tok = .CloseParen then .ok (acc, p.next)
    else do
      let (cs, p) ← parseConstSpec f p
      let acc := acc ++ [cs]
      let p := if p.tok = .Semicolon then p.next else p
      parseConstDeclLoop f acc p

/-- `parseConstSpec`: an identifier list, an optional type, and an
optional `=` expression list. -/
def parseConstSpec (fuel : Nat) (p : Parser) : Except PErr (DeclNode × Parser) :=
  match fuel with
  | 0 => .error .outOfFuel
  | f + 1 => do
    let cmnts := p.comments
    let (names, p) ← parseIdentifierList f p
    if typeFirst p.tok then do
      let (typ, p) ← parseType f p
      if p.tok = .Equal then do
        let p := p.next
        let (values, p) ← parseExpressionList f p
        .ok (.constSpec cmnts names (some typ) values, p)
      else
        .ok (.constSpec cmnts names (some typ) [], p)
    else
      if p.tok = .Equal then do
        let p := p.next
        let (values, p) ← parseExpressionList f p
        .ok (.constSpec cmnts names none values, p)
      else
        .ok (.constSpec cmnts names none [], p)

/-- `parseIdentifierList`: one or more comma-separated identifiers. -/
def parseIdentifierList (fuel : Nat) (p : Parser) :
    Except PErr (List Ident × Parser) :=
  match fuel with
  | 0 => .error .outOfFuel
  | f + 1 => parseIdentifierListLoop f [] p

/-- The accumulating `for` loop of `parseIdentifierList`. -/
def parseIdentifierListLoop (fuel : Nat) (acc : List Ident) (p : Parser) :
    Except PErr (List Ident × Parser) :=
  match fuel with
  | 0 => .error .outOfFuel
  | f + 1 => do
    let (id, p) ← parseIdentifier p
    let acc := acc ++ [id]
    if p.tok = .Comma then parseIdentifierListLoop f acc p.next
    else .ok (acc, p)

/-- `parseTypeDecl`: a single `TypeSpec` or a parenthesized group. -/
def parseTypeDecl (fuel : Nat) (p : Parser) :
    Except PErr (List DeclNode × Parser) :=
  match fuel with
  | 0 => .error .outOfFuel
  | f + 1 => do
    p.expectTok .TypeKw
    let cmnts := p.comments
    let p := p.next
    if p.tok ≠ .OpenParen then do
      let (ts, p) ← parseTypeSpec f p
      .ok ([ts.withComments cmnts], p)
    else
      parseTypeDeclLoop f [] p.next

/-- The grouped-spec `for` loop of `parseTypeDecl`. -/
def parseTypeDeclLoop (fuel : Nat) (acc : List DeclNode) (p : Parser) :
    Except PErr (List DeclNode × Parser) :=
  match fuel with
  | 0 => .error .outOfFuel
  | f + 1 =>
    if p.tok = .CloseParen then .ok (acc, p.next)
    else do
      let (ts, p) ← parseTypeSpec f p
      let acc := acc ++ [ts]
      let p := if p.tok = .Semicolon then p.next else p
      parseTypeDeclLoop f acc p

/-- `parseTypeSpec`: a name and a type. -/
def parseTypeSpec (fuel : Nat) (p : Parser) : Except PErr (DeclNode × Parser) :=
  match fuel with
  | 0 => .error .outOfFuel
  | f + 1 => do
    let cmnts := p.comments
    let (name, p) ← parseIdentifier p
    let (typ, p) ← parseType f p
    .ok (.typeSpec cmnts name typ, p)

/-- `parseType` of `src/unnamed/part_001`: like the expression grammar's
but with struct and interface types implemented and `...`-less array
sizes. -/
def parseType (fuel : Nat) (p : Parser) : Except PErr (GoType × Parser) :=
  match fuel with
  | 0 => .error .outOfFuel
  | f + 1 =>
    match p.tok with
    | .Identifier => parseTypeName p
    | .Star => do
      let starLoc := p.lexStart
      let p := p.next
      let (t, p) ← parseType f p
      .ok (.pointerType t starLoc, p)
    | .OpenBracket => parseArrayOrSliceType f false p
    | .StructKw => parseStructType f p
    | .FuncKw => do
      let p := p.next
      let (sig, p) ← parseSignature f p
      .ok (.functionType sig, p)
    | .InterfaceKw => parseInterfaceType f p
    | .MapKw => parseMapType f p
    | .ChanKw => parseChannelType f p
    | .LessMinus => parseChannelType f p
    | .OpenParen => do
      let p := p.next
      let (t, p) ← parseType f p
      p.expectTok .CloseParen
      .ok (t, p.next)
    | _ =>
      pmErr p [tokStr .Identifier, tokStr .Star, tokStr .OpenBracket,
        tokStr .StructKw, tokStr .FuncKw, tokStr .InterfaceKw, tokStr .MapKw,
        tokStr .ChanKw, tokStr .LessMinus, tokStr .OpenParen]

/-- `parseStructType`: `struct` `{` field declarations separated by
semicolons `}`. -/
def parseStructType (fuel : Nat) (p : Parser) : Except PErr (GoType × Parser) :=
  match fuel with
  | 0 => .error .outOfFuel
  | f + 1 => do
    p.expectTok .StructKw
    let keywordLoc := p.lexStart
    let p := p.next
    p.expectTok .OpenBrace
    let p := p.next
    let (fields, p) ← parseStructTypeLoop f [] p
    p.expectTok .CloseBrace
    .ok (.structType fields keywordLoc p.lexStart, p.next)

/-- The field-gathering `for` loop of `parseStructType`. -/
def parseStructTypeLoop (fuel : Nat) (acc : List FieldDecl) (p : Parser) :
    Except PErr (List FieldDecl × Parser) :=
  match fuel with
  | 0 => .error .outOfFuel
  | f + 1 =>
    if p.tok = .CloseBrace then .ok (acc, p)
    else do
      let (field, p) ← parseFieldDecl f p
      let acc := acc ++ [field]
      if p.tok ≠ .CloseBrace then do
        p.expectTok .Semicolon
        parseStructTypeLoop f acc p.next
      else
        parseStructTypeLoop f acc p

/-- `parseFieldDecl`: `*T` embedded pointer types, `pkg.T` embedded
qualified types, a lone identifier as an embedded type name (when followed
by a tag, semicolon or close brace), or one-or-more field names with an
explicit type; an optional tag closes the `*T`/`pkg.T` and named-field
forms (the `goto tag` paths). -/
def parseFieldDecl (fuel : Nat) (p : Parser) : Except PErr (FieldDecl × Parser) :=
  match fuel with
  | 0 => .error .outOfFuel
  | f + 1 =>
    if p.tok = .Star then do
      let p := p.next
      let (tn, p) ← parseTypeName p
      let typ : GoType := .pointerType tn ⟨0, 0⟩
      if p.tok = .StringLiteral then do
        let (tag, p) ← parseStringLiteral p
        .ok (.mk [] typ (some tag), p)
      else
        .ok (.mk [] typ none, p)
    else do
      let (id, p) ← parseIdentifier p
      match p.tok with
      | .Dot => do
        let p := p.next
        p.expectTok .Identifier
        let typ : GoType := .typeName id.name p.text ⟨id.sp.start, p.lexEnd⟩
        let p := p.next
        if p.tok = .StringLiteral then do
          let (tag, p) ← parseStringLiteral p
          .ok (.mk [] typ (some tag), p)
        else
          .ok (.mk [] typ none, p)
      | .StringLiteral => do
        let (tag, p) ← parseStringLiteral p
        .ok (.mk [] (.typeName "" id.name id.sp) (some tag), p)
      | .Semicolon => .ok (.mk [] (.typeName "" id.name id.sp) none, p)
      | .CloseBrace => .ok (.mk [] (.typeName "" id.name id.sp) none, p)
      | _ => do
        let (ids, p) ← parseFieldDeclIdentsLoop f [id] p
        let (typ, p) ← parseType f p
        if p.tok = .StringLiteral then do
          let (tag, p) ← parseStringLiteral p
          .ok (.mk ids typ (some tag), p)
        else
          .ok (.mk ids typ none, p)

/-- The additional-name `for` loop of `parseFieldDecl` (`for p.tok ==
token.Comma`). -/
def parseFieldDeclIdentsLoop (fuel : Nat) (acc : List Ident) (p : Parser) :
    Except PErr (List Ident × Parser) :=
  match fuel with
  | 0 => .error .outOfFuel
  | f + 1 =>
    if p.tok = .Comma then do
      let p := p.next
      let (id, p) ← parseIdentifier p
      parseFieldDeclIdentsLoop f (acc ++ [id]) p
    else .ok (acc, p)

/-- `parseInterfaceType`: `interface` `{` method or embedded-interface
entries separated by semicolons `}`. -/
def parseInterfaceType (fuel : Nat) (p : Parser) : Except PErr (GoType × Parser) :=
  match fuel with
  | 0 => .error .outOfFuel
  | f + 1 => do
    p.expectTok .InterfaceKw
    let keywordLoc := p.lexStart
    let p := p.next
    p.expectTok .OpenBrace
    let p := p.next
    let (methods, p) ← parseInterfaceTypeLoop f [] p
    p.expectTok .CloseBrace
    .ok (.interfaceType methods keywordLoc p.lexStart, p.next)

/-- The entry-gathering `for` loop of `parseInterfaceType`. -/
def parseInterfaceTypeLoop (fuel : Nat) (acc : List MethodItem) (p : Parser) :
    Except PErr (List MethodItem × Parser) :=
  match fuel with
  | 0 => .error .outOfFuel
  | f + 1 =>
    if p.tok = .CloseBrace then .ok (acc, p)
    else do
      let (id, p) ← parseIdentifier p
      let (item, p) ←
        match p.tok with
        | .OpenParen => do
          let (sig, p) ← parseSignature f p
          pure ((MethodItem.method id sig), p)
        | .Dot => do
          let p := p.next
          p.expectTok .Identifier
          let item := MethodItem.embedded (.typeName id.name p.text ⟨id.sp.start, p.lexEnd⟩)
          pure (item, p.next)
        | _ => pure (MethodItem.embedded (.typeName "" id.name id.sp), p)
      let acc := acc ++ [item]
      if p.tok ≠ .CloseBrace then do
        p.expectTok .Semicolon
        parseInterfaceTypeLoop f acc p.next
      else
        parseInterfaceTypeLoop f acc p

/-- `parseSignature` of `src/unnamed/part_001`: a bare result type is
wrapped into a one-element `ParameterList` spanning the type. -/
def parseSignature (fuel : Nat) (p : Parser) : Except PErr (Signature × Parser) :=
  match fuel with
  | 0 => .error .outOfFuel
  | f + 1 => do
    let (params, p) ← parseParameterList f p
    if p.tok = .OpenParen then do
      let (results, p) ← parseParameterList f p
      .ok (.mk params (.params results), p)
    else if typeFirst p.tok then do
      let (t, p) ← parseType f p
      let wrapped : ParameterList :=
        .mk [.mk t [] false] t.startL ((GoType.endLoc? t).getD ⟨0, 0⟩)
      .ok (.mk params (.params wrapped), p)
    else
      .ok (.mk params (.params (.mk [] ⟨0, 0⟩ ⟨0, 0⟩)), p)

/-- `parseParameterList` (identical text to the expression grammar's, but
calling this grammar's `parseType`). -/
def parseParameterList (fuel : Nat) (p : Parser) : Except PErr (ParameterList × Parser) :=
  match fuel with
  | 0 => .error .outOfFuel
  | f + 1 => do
    p.expectTok .OpenParen
    let pl : ParameterList := .mk [] p.lexStart ⟨0, 0⟩
    let p := p.next
    let (pl, p) ← parseParameterListTail f pl [] p
    p.expectTok .CloseParen
    .ok (ParameterList.mk pl.parameters pl.openLoc p.lexStart, p.next)

/-- `parseParameterListTail` (as in the expression grammar). -/
def parseParameterListTail (fuel : Nat) (pl : ParameterList) (idents : List Ident)
    (p : Parser) : Except PErr (ParameterList × Parser) :=
  match fuel with
  | 0 => .error .outOfFuel
  | f + 1 =>
    if p.tok = .CloseParen then
      .ok (ParameterList.mk (typeNameDecls idents) pl.openLoc p.lexStart, p)
    else if p.tok = .Identifier then do
      let (id, p) ← parseIdentifier p
      if p.tok = .Comma then
        parseParameterListTail f pl (idents ++ [id]) p.next
      else if p.tok = .CloseParen then
        parseParameterListTail f pl (idents ++ [id]) p
      else if p.tok = .Dot then do
        let p := p.next
        p.expectTok .Identifier
        let t : GoType := .typeName id.name p.text ⟨id.sp.start, p.lexEnd⟩
        let p := p.next
        let d : ParameterDecl := .mk t [] false
        let pl := ParameterList.mk (typeNameDecls idents ++ [d]) pl.openLoc pl.closeLoc
        parseTypeParameterList f pl p
      else do
        let idents := idents ++ [id]
        let (ddd, p) := if p.tok = .DotDotDot then (true, p.next) else (false, p)
        let (t, p) ← parseType f p
        let d : ParameterDecl := .mk t idents ddd
        let pl := ParameterList.mk [d] pl.openLoc pl.closeLoc
        if ddd then .ok (pl, p) else parseDeclParameterList f pl p
    else if p.tok = .DotDotDot then do
      let p := p.next
      let (t, p) ← parseType f p
      let d : ParameterDecl := .mk t [] true
      .ok (ParameterList.mk (typeNameDecls idents ++ [d]) pl.openLoc pl.closeLoc, p)
    else if typeFirst p.tok then do
      let (t, p) ← parseType f p
      let d : ParameterDecl := .mk t [] false
      let pl := ParameterList.mk (typeNameDecls idents ++ [d]) pl.openLoc pl.closeLoc
      parseTypeParameterList f pl p
    else
      pmErr p [")", "...", "identifier", "type"]

/-- `parseTypeParameterList` (as in the expression grammar). -/
def parseTypeParameterList (fuel : Nat) (pl : ParameterList) (p : Parser) :
    Except PErr (ParameterList × Parser) :=
  match fuel with
  | 0 => .error .outOfFuel
  | f + 1 =>
    if p.tok = .CloseParen then .ok (pl, p)
    else do
      p.expectTok .Comma
      let p := p.next
      if p.tok = .CloseParen then .ok (pl, p)
      else do
        let (ddd, p) := if p.tok = .DotDotDot then (true, p.next) else (false, p)
        let (t, p) ← parseType f p
        let pl := ParameterList.mk (pl.parameters ++ [.mk t [] ddd]) pl.openLoc pl.closeLoc
        if ddd then .ok (pl, p) else parseTypeParameterList f pl p

/-- `parseDeclParameterList` (as in the expression grammar). -/
def parseDeclParameterList (fuel : Nat) (pl : ParameterList) (p : Parser) :
    Except PErr (ParameterList × Parser) :=
  match fuel with
  | 0 => .error .outOfFuel
  | f + 1 =>
    if p.tok = .CloseParen then .ok (pl, p)
    else do
      p.expectTok .Comma
      let p := p.next
      if p.tok = .CloseParen then .ok (pl, p)
      else do
        let (ids, p) ← parseDeclParameterIdents f [] p
        let (ddd, p) := if p.tok = .DotDotDot then (true, p.next) else (false, p)
        let (t, p) ← parseType f p
        let pl := ParameterList.mk (pl.parameters ++ [.mk t ids ddd]) pl.openLoc pl.closeLoc
        parseDeclParameterList f pl p

/-- The identifier-gathering `for` loop inside `parseDeclParameterList`. -/
def parseDeclParameterIdents (fuel : Nat) (acc : List Ident) (p : Parser) :
    Except PErr (List Ident × Parser) :=
  match fuel with
  | 0 => .error .outOfFuel
  | f + 1 => do
    let (id, p) ← parseIdentifier p
    let acc := acc ++ [id]
    if p.tok = .Comma then parseDeclParameterIdents f acc p.next
    else .ok (acc, p)

/-- `parseChannelType` (as in the expression grammar). -/
def parseChannelType (fuel : Nat) (p : Parser) : Except PErr (GoType × Parser) :=
  match fuel with
  | 0 => .error .outOfFuel
  | f + 1 => do
    let startLoc := p.lexStart
    let (send, p) := if p.tok = .LessMinus then (false, p.next) else (true, p)
    p.expectTok .ChanKw
    let p := p.next
    let (receive, p) := if send ∧ p.tok = .LessMinus then (false, p.next) else (true, p)
    let (t, p) ← parseType f p
    .ok (.channelType send receive t startLoc, p)

/-- `parseMapType` (as in the expression grammar). -/
def parseMapType (fuel : Nat) (p : Parser) : Except PErr (GoType × Parser) :=
  match fuel with
  | 0 => .error .outOfFuel
  | f + 1 => do
    p.expectTok .MapKw
    let mapLoc := p.lexStart
    let p := p.next
    p.expectTok .OpenBracket
    let p := p.next
    let (key, p) ← parseType f p
    p.expectTok .CloseBracket
    let p := p.next
    let (t, p) ← parseType f p
    .ok (.mapType key t mapLoc, p)

/-- `parseArrayOrSliceType` of `src/unnamed/part_001`: when `dotDotDot`
holds, a `[...]T` size is accepted (for composite literals) and recorded
as an absent `Size`. -/
def parseArrayOrSliceType (fuel : Nat) (dotDotDot : Bool) (p : Parser) :
    Except PErr (GoType × Parser) :=
  match fuel with
  | 0 => .error .outOfFuel
  | f + 1 => do
    p.expectTok .OpenBracket
    let openLoc := p.lexStart
    let p := p.next
    if p.tok = .CloseBracket then do
      let p := p.next
      let (t, p) ← parseType f p
      .ok (.sliceType t openLoc, p)
    else do
      let (size, p) ←
        if dotDotDot ∧ p.tok = .DotDotDot then
          pure ((none : Option Expression), p.next)
        else do
          let (e, p) ← parseExpression f p
          pure (some e, p)
      p.expectTok .CloseBracket
      let p := p.next
      let (t, p) ← parseType f p
      .ok (.arrayType size t openLoc, p)

/-- `parseExpression` (as in the expression grammar). -/
def parseExpression (fuel : Nat) (p : Parser) : Except PErr (Expression × Parser) :=
  match fuel with
  | 0 => .error .outOfFuel
  | f + 1 => parseBinaryExpr f 1 p

/-- `parseBinaryExpr` (as in the expression grammar). -/
def parseBinaryExpr (fuel : Nat) (prec : Nat) (p : Parser) :
    Except PErr (Expression × Parser) :=
  match fuel with
  | 0 => .error .outOfFuel
  | f + 1 => do
    let (left, p) ← parseUnaryExpr f p
    parseBinaryExprLoop f prec left p

/-- The operator-folding loop of `parseBinaryExpr`. -/
def parseBinaryExprLoop (fuel : Nat) (prec : Nat) (left : Expression) (p : Parser) :
    Except PErr (Expression × Parser) :=
  match fuel with
  | 0 => .error .outOfFuel
  | f + 1 =>
    match precedence p.tok with
    | none => .ok (left, p)
    | some pr =>
      if pr < prec then .ok (left, p)
      else do
        let op := p.tok
        let opLoc := p.lexStart
        let p := p.next
        let (right, p) ← parseBinaryExpr f (pr + 1) p
        parseBinaryExprLoop f prec (.binaryOp op opLoc left right) p

/-- `parseUnaryExpr` (as in the expression grammar). -/
def parseUnaryExpr (fuel : Nat) (p : Parser) : Except PErr (Expression × Parser) :=
  match fuel with
  | 0 => .error .outOfFuel
  | f + 1 =>
    if unaryTok p.tok then do
      let op := p.tok
      let opLoc := p.lexStart
      let p := p.next
      let (operand, p) ← parseUnaryExpr f p
      .ok (.unaryOp op opLoc operand, p)
    else parsePrimaryExpr f p

/-- `parsePrimaryExpr` (as in the expression grammar). -/
def parsePrimaryExpr (fuel : Nat) (p : Parser) : Except PErr (Expression × Parser) :=
  match fuel with
  | 0 => .error .outOfFuel
  | f + 1 => do
    let (left, p) ← parseOperand f p
    parsePrimaryExprLoop f left p

/-- The postfix-operator loop of `parsePrimaryExpr`. -/
def parsePrimaryExprLoop (fuel : Nat) (left : Expression) (p : Parser) :
    Except PErr (Expression × Parser) :=
  match fuel with
  | 0 => .error .outOfFuel
  | f + 1 =>
    match p.tok with
    | .OpenBracket => do
      let (left, p) ← parseSliceOrIndex f left p
      parsePrimaryExprLoop f left p
    | .OpenParen => do
      let (left, p) ← parseCall f left p
      parsePrimaryExprLoop f left p
    | .Dot => do
      let (left, p) ← parseSelectorOrTypeAssertion f left p
      parsePrimaryExprLoop f left p
    | _ => .ok (left, p)

/-- `parseSliceOrIndex` (as in the expression grammar). -/
def parseSliceOrIndex (fuel : Nat) (left : Expression) (p : Parser) :
    Except PErr (Expression × Parser) :=
  match fuel with
  | 0 => .error .outOfFuel
  | f + 1 => do
    p.expectTok .OpenBracket
    let openLoc := p.lexStart
    let p := p.next
    if p.tok = .Colon then do
      let (sl, p) ← parseSliceHighMax f left none p
      .ok (setSliceOpen sl openLoc, p)
    else do
      let (e, p) ← parseExpression f p
      if p.tok = .CloseBracket then
        .ok (.indexExpr left e openLoc p.lexEnd, p.next)
      else if p.tok = .Colon then do
        let (sl, p) ← parseSliceHighMax f left (some e) p
        .ok (setSliceOpen sl openLoc, p)
      else
        pmErr p [tokStr .CloseBracket, tokStr .Colon]

/-- `parseSliceHighMax` (as in the expression grammar). -/
def parseSliceHighMax (fuel : Nat) (left : Expression) (low : Option Expression)
    (p : Parser) : Except PErr (Expression × Parser) :=
  match fuel with
  | 0 => .error .outOfFuel
  | f + 1 => do
    p.expectTok .Colon
    let p := p.next
    if p.tok ≠ .CloseBracket then do
      let (high, p) ← parseExpression f p
      if p.tok = .Colon then do
        let p := p.next
        let (maxB, p) ← parseExpression f p
        p.expectTok .CloseBracket
        .ok (.sliceExpr left low (some high) (some maxB) ⟨0, 0⟩ p.lexStart, p.next)
      else do
        p.expectTok .CloseBracket
        .ok (.sliceExpr left low (some high) none ⟨0, 0⟩ p.lexStart, p.next)
    else do
      p.expectTok .CloseBracket
      .ok (.sliceExpr left low none none ⟨0, 0⟩ p.lexStart, p.next)

/-- `parseCall` (as in the expression grammar). -/
def parseCall (fuel : Nat) (left : Expression) (p : Parser) :
    Except PErr (Expression × Parser) :=
  match fuel with
  | 0 => .error .outOfFuel
  | f + 1 => do
    p.expectTok .OpenParen
    let openLoc := p.lexStart
    let p := p.next
    let (args, p) ← parseExpressionList f p
    let (ddd, p) := if p.tok = .DotDotDot then (true, p.next) else (false, p)
    p.expectTok .CloseParen
    .ok (.call left args ddd openLoc p.lexEnd, p.next)

/-- `parseExpressionList` (as in the expression grammar). -/
def parseExpressionList (fuel : Nat) (p : Parser) :
    Except PErr (List Expression × Parser) :=
  match fuel with
  | 0 => .error .outOfFuel
  | f + 1 => parseExpressionListLoop f [] p

/-- The accumulating loop of `parseExpressionList`. -/
def parseExpressionListLoop (fuel : Nat) (acc : List Expression) (p : Parser) :
    Except PErr (List Expression × Parser) :=
  match fuel with
  | 0 => .error .outOfFuel
  | f + 1 => do
    let (e, p) ← parseExpression f p
    let acc := acc ++ [e]
    if p.tok = .Comma then parseExpressionListLoop f acc p.next
    else .ok (acc, p)

/-- `parseOperand` of `src/unnamed/part_001`: additionally, `struct`,
`map` and `[` start a composite literal. -/
def parseOperand (fuel : Nat) (p : Parser) : Except PErr (Expression × Parser) :=
  match fuel with
  | 0 => .error .outOfFuel
  | f + 1 =>
    match p.tok with
    | .Identifier => do
      let (id, p) ← parseIdentifier p
      if p.tok = .Dot then parseSelectorOrTypeAssertion f (.ident id) p
      else .ok (.ident id, p)
    | .IntegerLiteral => parseIntegerLiteral p
    | .FloatLiteral => parseFloatLiteral p
    | .ImaginaryLiteral => parseImaginaryLiteral p
    | .RuneLiteral => parseRuneLiteral p
    | .StringLiteral => parseStringLiteral p
    | .StructKw => parseCompositeLiteral f p
    | .MapKw => parseCompositeLiteral f p
    | .OpenBracket => parseCompositeLiteral f p
    | .OpenParen => do
      let p := p.next
      let (e, p) ← parseExpression f p
      p.expectTok .CloseParen
      .ok (e, p.next)
    | _ => pmErr p ["operand"]

/-- `parseCompositeLiteral`: a type (array/slice types may use a `...`
size here), then a literal value whose `Type` field is set to it. -/
def parseCompositeLiteral (fuel : Nat) (p : Parser) :
    Except PErr (Expression × Parser) :=
  match fuel with
  | 0 => .error .outOfFuel
  | f + 1 => do
    let (typ, p) ←
      if p.tok = .OpenBracket then parseArrayOrSliceType f true p
      else parseType f p
    let (lit, p) ← parseLiteralValue f p
    .ok (setCompositeType lit typ, p)

/-- `parseLiteralValue`: `{` comma-separated elements `}`; the returned
`CompositeLiteral` has no type yet. -/
def parseLiteralValue (fuel : Nat) (p : Parser) :
    Except PErr (Expression × Parser) :=
  match fuel with
  | 0 => .error .outOfFuel
  | f + 1 => do
    p.expectTok .OpenBrace
    let openLoc := p.lexStart
    let p := p.next
    let (elems, p) ← parseLiteralValueLoop f [] p
    p.expectTok .CloseBrace
    .ok (.compositeLit none elems openLoc p.lexStart, p.next)

/-- The element-gathering `for` loop of `parseLiteralValue`. -/
def parseLiteralValueLoop (fuel : Nat) (acc : List Element) (p : Parser) :
    Except PErr (List Element × Parser) :=
  match fuel with
  | 0 => .error .outOfFuel
  | f + 1 =>
    if p.tok = .CloseBrace then .ok (acc, p)
    else do
      let (e, p) ← parseElement f p
      let acc := acc ++ [e]
      if p.tok = .Comma then parseLiteralValueLoop f acc p.next
      else .ok (acc, p)

/-- `parseElement`: a bare nested literal value, a bare expression, or a
`key : value` pair whose value may itself be a nested literal value.
Nested literal values keep a nil `Type`. -/
def parseElement (fuel : Nat) (p : Parser) : Except PErr (Element × Parser) :=
  match fuel with
  | 0 => .error .outOfFuel
  | f + 1 =>
    if p.tok = .OpenBrace then do
      let (v, p) ← parseLiteralValue f p
      .ok (.mk none v, p)
    else do
      let (expr, p) ← parseExpression f p
      if p.tok ≠ .Colon then .ok (.mk none expr, p)
      else do
        let p := p.next
        if p.tok = .OpenBrace then do
          let (v, p) ← parseLiteralValue f p
          .ok (.mk (some expr) v, p)
        else do
          let (v, p) ← parseExpression f p
          .ok (.mk (some expr) v, p)

/-- `parseSelectorOrTypeAssertion` (as in the expression grammar, with
this grammar's `parseType`). -/
def parseSelectorOrTypeAssertion (fuel : Nat) (left : Expression) (p : Parser) :
    Except PErr (Expression × Parser) :=
  match fuel with
  | 0 => .error .outOfFuel
  | f + 1 => do
    p.expectTok .Dot
    let dotLoc := p.lexStart
    let p := p.next
    match p.tok with
    | .OpenParen => do
      let p := p.next
      let (t, p) ← parseType f p
      p.expectTok .CloseParen
      .ok (.typeAssertion left (some t) dotLoc p.lexStart, p.next)
    | .Identifier => do
      let (sel, p) ← parseIdentifier p
      let left := Expression.selector left sel dotLoc
      if p.tok = .Dot then parseSelectorOrTypeAssertion f left p
      else .ok (left, p)
    | _ => pmErr p [tokStr .OpenParen, tokStr .Identifier]

end

/-- The observable outcome of the top-level `Parse` of
`src/unnamed/part_001`, whose root production is `parseDeclarations`. -/
inductive Result where
  | ok (root : List DeclNode)
  | errSyn (e : SynErr)
  | errMal (e : MalformedLit)
  | panicked (msg : String)
  | outOfFuel
deriving Repr

/-- `Parse` of `src/unnamed/part_001`: run `parseDeclarations` and recover —
a `*SyntaxError` or `*MalformedLiteral` becomes the returned error, any
other panic is re-raised. -/
def Parse (fuel : Nat) (p : Parser) : Result :=
  match parseDeclarations fuel p with
  | .ok (ds, _) => .ok ds
  | .error (.unwind (.syn e)) => .errSyn e
  | .error (.unwind (.mal e)) => .errMal e
  | .error (.unwind (.strPanic s)) => .panicked s
  | .error .outOfFuel => .outOfFuel

end DG

/-! ### Symbol table and declaration resolver (`src/ast/decl.go`)

`decl.go` resolves parsed top-level declarations into nested scopes. The
declaration structs it consumes (`File`, `FunctionDecl`, `MethodDecl`,
`VarSpec`, `ImportDecl`, and the `Identifiers`-bearing versions of
`ConstSpec`/`TypeSpec`) are not under `src/` and are modelled from the
spec with exactly the fields `decl.go` reads. Distinct Go pointers are
distinguished structurally: each synthetic predeclared constant/function
carries its universe name, and user declarations carry their identifiers'
spans. -/

/-- Modelled from the spec: a `FunctionDecl`'s identifier (the only field
`pkgDecls` reads). -/
structure FunctionDecl where
  identifier : Ident
deriving DecidableEq, Repr

/-- Modelled from the spec: a `MethodDecl`'s identifier. -/
structure MethodDecl where
  identifier : Ident
deriving DecidableEq, Repr

/-- Modelled from the spec: the `TypeSpec` fields `pkgDecls` reads
(`d.Identifier.Name`). -/
structure TypeSpecDecl where
  identifier : Ident
deriving DecidableEq, Repr

/-- Modelled from the spec: the `ConstSpec` fields `pkgDecls` reads
(`d.Identifiers`; the `views` back-references it appends are write-only
during resolution and not modelled). -/
structure ConstSpecDecl where
  identifiers : List Ident
deriving DecidableEq, Repr

/-- Modelled from the spec: the `VarSpec` fields `pkgDecls` reads. -/
structure VarSpecDecl where
  identifiers : List Ident
deriving DecidableEq, Repr

/-- Modelled from the spec: an `ImportDecl` with the names its import
specs bind (`im.Name()` for `im` ranging over `d.Imports`). -/
structure ImportDecl where
  names : List String
deriving DecidableEq, Repr

/-- The `checkState` of a declaration view: `unchecked`, `checking`,
`checkedOK` or `checkedError`. -/
inductive CheckState where
  | unchecked
  | checking
  | checkedOK
  | checkedError
deriving DecidableEq, Repr

/-- A top-level declaration as consumed by `pkgDecls` (the cases of its
type switch; any other dynamic type panics `"invalid top-level
declaration"`, which the closed sum makes unrepresentable). -/
inductive TopDecl where
  | methodDecl (d : MethodDecl)
  | funcDecl (d : FunctionDecl)
  | typeSpec (d : TypeSpecDecl)
  | constSpec (d : ConstSpecDecl)
  | varSpec (d : VarSpecDecl)
deriving DecidableEq, Repr

/-- Modelled from the spec: a source `File` as the resolver consumes it —
its import declarations and its top-level declarations. -/
structure File where
  imports : List ImportDecl
  declarations : List TopDecl
deriving DecidableEq, Repr

/-- A declaration as stored in a scope: the synthetic predeclared
declarations of the universe scope, the top-level declarations, the
per-identifier `constSpecView`/`varSpecView` projections, and the opaque
`packageDecl` imports are bound to (its placeholder scope is a fresh empty
table chained to the universe and carries no information, so only the
`ImportDecl` back-reference is stored). -/
inductive Declaration where
  | predeclType (t : Nat)
  | predeclConst (name : String)
  | predeclFunc (name : String)
  | methodDecl (d : MethodDecl)
  | funcDecl (d : FunctionDecl)
  | typeSpec (d : TypeSpecDecl)
  | constView (spec : ConstSpecDecl) (index : Nat) (state : CheckState)
  | varView (spec : VarSpecDecl) (index : Nat)
  | packageDecl (imp : ImportDecl)
deriving DecidableEq, Repr

/-- The `predeclaredType` constants `Bool … Uintptr` (iota values). -/
def Bool' : Nat := 0
def Complex64 : Nat := 1
def Complex128 : Nat := 2
def Error' : Nat := 3
def Float32 : Nat := 4
def Float64 : Nat := 5
def Int' : Nat := 6
def Int8 : Nat := 7
def Int16 : Nat := 8
def Int32 : Nat := 9
def Int64 : Nat := 10
def String' : Nat := 11
def Uint : Nat := 12
def Uint8 : Nat := 13
def Uint16 : Nat := 14
def Uint32 : Nat := 15
def Uint64 : Nat := 16
def Uintptr : Nat := 17

/-- The fixed name-to-declaration table of the universe scope
(`univScope.Decls`), with the map literal's entries as an association
list. -/
def univDecls : List (String × Declaration) :=
  [("bool", .predeclType Bool'),
   ("byte", .predeclType Uint8),
   ("complex64", .predeclType Complex64),
   ("complex128", .predeclType Complex128),
   ("error", .predeclType Error'),
   ("float32", .predeclType Float32),
   ("float64", .predeclType Float64),
   ("int", .predeclType Int'),
   ("int8", .predeclType Int8),
   ("int16", .predeclType Int16),
   ("int32", .predeclType Int32),
   ("int64", .predeclType Int64),
   ("rune", .predeclType Int32),
   ("string", .predeclType String'),
   ("uint", .predeclType Uint),
   ("uint8", .predeclType Uint8),
   ("uint16", .predeclType Uint16),
   ("uint32", .predeclType Uint32),
   ("uint64", .predeclType Uint64),
   ("uintptr", .predeclType Uintptr),
   ("true", .predeclConst "true"),
   ("false", .predeclConst "false"),
   ("iota", .predeclConst "iota"),
   ("nil", .predeclConst "nil"),
   ("append", .predeclFunc "append"),
   ("cap", .predeclFunc "cap"),
   ("close", .predeclFunc "close"),
   ("complex", .predeclFunc "complex"),
   ("copy", .predeclFunc "copy"),
   ("delete", .predeclFunc "delete"),
   ("imag", .predeclFunc "imag"),
   ("len", .predeclFunc "len"),
   ("make", .predeclFunc "make"),
   ("new", .predeclFunc "new"),
   ("panic", .predeclFunc "panic"),
   ("print", .predeclFunc "print"),
   ("println", .predeclFunc "println"),
   ("real", .predeclFunc "real"),
   ("recover", .predeclFunc "recover")]

/-- A `symtab`: a name-to-declaration table plus the link to the enclosing
scope (`Up`; `none` models the nil pointer above the universe scope). -/
inductive Symtab where
  | mk (decls : List (String × Declaration)) (up : Option Symtab)
deriving Repr

/-- The table of a scope (`s.Decls`). -/
def Symtab.decls : Symtab → List (String × Declaration)
  | .mk ds _ => ds

/-- The enclosing scope of a scope (`s.Up`). -/
def Symtab.up : Symtab → Option Symtab
  | .mk _ u => u

/-- Lookup in one scope's own table (the Go map access `s.Decls[n]`). -/
def lookupDecls (ds : List (String × Declaration)) (n : String) : Option Declaration :=
  match ds with
  | [] => none
  | (k, d) :: rest => if k = n then some d else lookupDecls rest n

/-- The universe symtab (`univScope`): the predeclared table with no
enclosing scope. -/
def univScope : Symtab := .mk univDecls none

/-- `makeSymtab(up)`: a fresh empty scope chained to `up`. -/
def makeSymtab (up : Symtab) : Symtab := .mk [] (some up)

/-- A `Redeclaration` error: the name, the declaration it was first bound
to, and the offending new declaration. -/
structure Redecl where
  name : String
  first : Declaration
  second : Declaration
deriving DecidableEq, Repr

/-- `s.Find(n)`: the own table is consulted first and the search continues
in the enclosing scope; the nil scope above the universe finds nothing
(Go's `Find` on a nil receiver returns nil). -/
def Symtab.Find (s : Symtab) (n : String) : Option Declaration :=
  match s with
  | .mk ds u =>
    match lookupDecls ds n with
    | some d => some d
    | none =>
      match u with
      | some s2 => Symtab.Find s2 n
      | none => none

/-- `symtab.Find` on a possibly-nil receiver. -/
def findFrom : Option Symtab → String → Option Declaration
  | none, _ => none
  | some s, n => s.Find n

/-- `symtab.Bind`: the blank identifier is never bound; a name already
present in this scope's own table yields a `Redeclaration` keeping the
original binding; otherwise the name is added. Returns the updated scope
and the error, if any. -/
def Symtab.Bind (s : Symtab) (n : String) (d : Declaration) :
    Symtab × Option Redecl :=
  if n = "_" then (s, none)
  else
    match lookupDecls s.decls n with
    | some d0 => (s, some ⟨n, d0, d⟩)
    | none => (.mk (s.decls ++ [(n, d)]) s.up, none)

/-- An element of the error list `pkgDecls` accumulates: a non-nil
aggregated error from `fileDecls`, or a single `Redeclaration` from a
package-scope `Bind`. -/
inductive ResolveErr where
  | fileErr (es : List Redecl)
  | redecl (r : Redecl)
deriving DecidableEq, Repr

/-- Bind one import name to its opaque `packageDecl` placeholder,
appending the `Redeclaration` error if the name is taken (the inner loop
body of `fileDecls`). -/
def bindImportName (d : ImportDecl) (acc : Symtab × List Redecl) (nm : String) :
    Symtab × List Redecl :=
  match acc.1.Bind nm (.packageDecl d) with
  | (syms, some e) => (syms, acc.2 ++ [e])
  | (syms, none) => (syms, acc.2)

/-- Bind every import spec of one `ImportDecl` (the outer loop body of
`fileDecls`). -/
def bindImportDecl (acc : Symtab × List Redecl) (d : ImportDecl) :
    Symtab × List Redecl :=
  d.names.foldl (bindImportName d) acc

/-- `fileDecls`: build the file scope chained to the package scope and
bind every import name to an opaque `packageDecl` placeholder (whose own
scope is a fresh table chained to the universe; package contents are not
read). Errors accumulate and the scope stays valid. -/
def fileDecls (psyms : Symtab) (file : File) : Symtab × List Redecl :=
  file.imports.foldl bindImportDecl (makeSymtab psyms, [])

/-- Bind a name into the package scope, appending any `Redeclaration` to
the error list and continuing (the shared shape of every `Bind` call in
`pkgDecls`). -/
def bindPkgName (acc : Symtab × List ResolveErr) (n : String) (v : Declaration) :
    Symtab × List ResolveErr :=
  match acc.1.Bind n v with
  | (psyms, some e) => (psyms, acc.2 ++ [.redecl e])
  | (psyms, none) => (psyms, acc.2)

/-- Bind each identifier of a `ConstSpec` to its own `constSpecView` with
its positional index (`for i := range d.Identifiers`), starting at index
`i`. -/
def bindConstViews (spec : ConstSpecDecl) (ids : List Ident) (i : Nat)
    (acc : Symtab × List ResolveErr) : Symtab × List ResolveErr :=
  match ids with
  | [] => acc
  | id :: rest =>
    bindConstViews spec rest (i + 1) (bindPkgName acc id.name (.constView spec i .unchecked))

/-- Bind each identifier of a `VarSpec` to its own `varSpecView` with its
positional index. -/
def bindVarViews (spec : VarSpecDecl) (ids : List Ident) (i : Nat)
    (acc : Symtab × List ResolveErr) : Symtab × List ResolveErr :=
  match ids with
  | [] => acc
  | id :: rest =>
    bindVarViews spec rest (i + 1) (bindPkgName acc id.name (.varView spec i))

/-- Bind one top-level declaration into the package scope (the body of the
type switch in `pkgDecls`); const and var specs bind each identifier to
its own indexed view. The `d.syms = f.syms` back-link writes are write-only
during this pass and not modelled. -/
def bindTopDecl (acc : Symtab × List ResolveErr) (d : TopDecl) :
    Symtab × List ResolveErr :=
  match d with
  | .methodDecl d => bindPkgName acc d.identifier.name (.methodDecl d)
  | .funcDecl d => bindPkgName acc d.identifier.name (.funcDecl d)
  | .typeSpec d => bindPkgName acc d.identifier.name (.typeSpec d)
  | .constSpec d => bindConstViews d d.identifiers 0 acc
  | .varSpec d => bindVarViews d d.identifiers 0 acc

/-- The per-file body of the `pkgDecls` loop: build the file scope, append
its non-nil aggregated import errors, then bind the file's top-level
declarations into the package scope. -/
def resolveFileStep (acc : Symtab × List Symtab × List ResolveErr) (f : File) :
    Symtab × List Symtab × List ResolveErr :=
  let (psyms, fsyms, errs) := acc
  let (fsym, ferrs) := fileDecls psyms f
  let errs := if ferrs = [] then errs else errs ++ [.fileErr ferrs]
  let (psyms, errs) := f.declarations.foldl bindTopDecl (psyms, errs)
  (psyms, fsyms ++ [fsym], errs)

/-- `pkgDecls`: create the package scope chained to the universe scope,
then for every file build its file scope (appending any non-nil
aggregated import errors) and bind its top-level declarations into the package scope,
accumulating `Redeclaration` errors without ever aborting. Returns the
package scope, the per-file scopes, and the error list (empty means a nil
error). In Go each file scope's `Up` pointer aliases the one mutable
package scope; the returned file-scope values here capture the package
scope as it stood when the file scope was created, so chain-shape
properties are stated over the final chain directly. -/
def pkgDecls (files : List File) : Symtab × List Symtab × List ResolveErr :=
  files.foldl resolveFileStep (makeSymtab univScope, [], [])

/-! ### Concrete token streams for the claims

Tokens are laid out on line 1 with consecutive one-column spans: the
`i`-th token (0-based) starts at column `i + 1` and ends at column
`i + 2`. Only relative order of locations matters to the claims. -/

/-- Build a token list with the consecutive-column layout. -/
def mkToks (ps : List (Tok × String)) : List Token :=
  (ps.enum).map (fun q => ⟨q.2.1, q.2.2, ⟨1, q.1 + 1⟩, ⟨1, q.1 + 2⟩⟩)

/-- An identifier token entry. -/
def idT (s : String) : Tok × String := (.Identifier, s)

/-- An identifier expression node at column `c` of line 1. -/
def identAt (s : String) (c : Nat) : Expression :=
  .ident ⟨s, ⟨⟨1, c⟩, ⟨1, c + 1⟩⟩⟩

/-! ### Claim theorems -/

/-- C2: parsing `a + b * c` nests `*` under `+`; `a * b + c` has `+` at
the root; `a || b && c` nests `&&` under `||`; and `a + b + c`
left-associates — the left child of the outer `+` is itself a `+` node
while the right child is the plain identifier `c`. -/
theorem C2_precedence_and_associativity :
    EG.Parse 100 ⟨mkToks [idT "a", (.Plus, "+"), idT "b", (.Star, "*"), idT "c"]⟩ =
      .ok (.binaryOp .Plus ⟨1, 2⟩ (identAt "a" 1)
        (.binaryOp .Star ⟨1, 4⟩ (identAt "b" 3) (identAt "c" 5)))
  ∧ EG.Parse 100 ⟨mkToks [idT "a", (.Star, "*"), idT "b", (.Plus, "+"), idT "c"]⟩ =
      .ok (.binaryOp .Plus ⟨1, 4⟩
        (.binaryOp .Star ⟨1, 2⟩ (identAt "a" 1) (identAt "b" 3)) (identAt "c" 5))
  ∧ EG.Parse 100 ⟨mkToks [idT "a", (.OrOr, "||"), idT "b", (.AndAnd, "&&"), idT "c"]⟩ =
      .ok (.binaryOp .OrOr ⟨1, 2⟩ (identAt "a" 1)
        (.binaryOp .AndAnd ⟨1, 4⟩ (identAt "b" 3) (identAt "c" 5)))
  ∧ EG.Parse 100 ⟨mkToks [idT "a", (.Plus, "+"), idT "b", (.Plus, "+"), idT "c"]⟩ =
      .ok (.binaryOp .Plus ⟨1, 4⟩
        (.binaryOp .Plus ⟨1, 2⟩ (identAt "a" 1) (identAt "b" 3)) (identAt "c" 5)) :=
  ⟨rfl, rfl, rfl, rfl⟩

/-- C4: `a[b:c:d]` parses to a `Slice` with `Low = b`, `High = c`,
`Max = d`; `a[:b:c]` to a `Slice` with `Low = nil`, `High = b`, `Max = c`;
`a[:b:]` and `a[::b]` raise a `SyntaxError` (expecting an operand where
the omitted bound would be); and `a[b]` parses to an `Index` node. -/
theorem C4_slice_index_disambiguation :
    EG.Parse 100 ⟨mkToks [idT "a", (.OpenBracket, "["), idT "b", (.Colon, ":"),
        idT "c", (.Colon, ":"), idT "d", (.CloseBracket, "]")]⟩ =
      .ok (.sliceExpr (identAt "a" 1) (some (identAt "b" 3)) (some (identAt "c" 5))
        (some (identAt "d" 7)) ⟨1, 2⟩ ⟨1, 8⟩)
  ∧ EG.Parse 100 ⟨mkToks [idT "a", (.OpenBracket, "["), (.Colon, ":"), idT "b",
        (.Colon, ":"), idT "c", (.CloseBracket, "]")]⟩ =
      .ok (.sliceExpr (identAt "a" 1) none (some (identAt "b" 4))
        (some (identAt "c" 6)) ⟨1, 2⟩ ⟨1, 7⟩)
  ∧ EG.Parse 100 ⟨mkToks [idT "a", (.OpenBracket, "["), (.Colon, ":"), idT "b",
        (.Colon, ":"), (.CloseBracket, "]")]⟩ =
      .errSyn ⟨["operand"], .CloseBracket, "]", ⟨1, 6⟩, ⟨1, 7⟩⟩
  ∧ EG.Parse 100 ⟨mkToks [idT "a", (.OpenBracket, "["), (.Colon, ":"), (.Colon, ":"),
        idT "b", (.CloseBracket, "]")]⟩ =
      .errSyn ⟨["operand"], .Colon, ":", ⟨1, 4⟩, ⟨1, 5⟩⟩
  ∧ EG.Parse 100 ⟨mkToks [idT "a", (.OpenBracket, "["), idT "b", (.CloseBracket, "]")]⟩ =
      .ok (.indexExpr (identAt "a" 1) (identAt "b" 3) ⟨1, 2⟩ ⟨1, 5⟩) :=
  ⟨rfl, rfl, rfl, rfl, rfl⟩

/-- C5: `(a, b int)` parses to a parameter list with a single
`ParameterDecl` whose identifiers are `a` and `b` and whose type is `int`,
while `(a int, b)` raises a `SyntaxError` (after `b` a type is required
but `)` follows) — bare-type and identifier-led interpretations never
mix. -/
theorem C5_parameter_list_exclusivity :
    EG.parseParameterList 100 ⟨mkToks [(.OpenParen, "("), idT "a", (.Comma, ","),
        idT "b", idT "int", (.CloseParen, ")")]⟩ =
      .ok (.mk [.mk (.typeName "" "int" ⟨⟨1, 5⟩, ⟨1, 6⟩⟩)
          [⟨"a", ⟨⟨1, 2⟩, ⟨1, 3⟩⟩⟩, ⟨"b", ⟨⟨1, 4⟩, ⟨1, 5⟩⟩⟩] false]
        ⟨1, 1⟩ ⟨1, 6⟩, ⟨[]⟩)
  ∧ EG.parseParameterList 100 ⟨mkToks [(.OpenParen, "("), idT "a", idT "int",
        (.Comma, ","), idT "b", (.CloseParen, ")")]⟩ =
      .error (.unwind (.syn ⟨["identifier", "*", "[", "struct", "func", "interface",
        "map", "chan", "<-", "("], .CloseParen, ")", ⟨1, 6⟩, ⟨1, 7⟩⟩)) :=
  ⟨rfl, rfl⟩

/-- C8 counterexample: on the input `a[5` the parser panics
`p.err(token.CloseBracket, token.Colon)` — the single returned
`SyntaxError` expects `]` *or* `:`, so its expected-token description is
not `]` alone as the claim states. -/
theorem C8_counterexample :
    EG.Parse 100 ⟨mkToks [idT "a", (.OpenBracket, "["), (.IntegerLiteral, "5")]⟩ =
      .errSyn ⟨[tokStr .CloseBracket, tokStr .Colon], .EOF, "", ⟨0, 0⟩, ⟨0, 0⟩⟩
  ∧ [tokStr .CloseBracket, tokStr .Colon] ≠ ["]"] :=
  ⟨rfl, by decide⟩

/-- C8 amended: parsing the expression input `a[5` (end of input after the
index expression) makes `Parse` return exactly one `SyntaxError` whose
expected-token descriptions are `]` and `:`, and no AST root is
returned. -/
theorem C8_amended_unterminated_index :
    EG.Parse 100 ⟨mkToks [idT "a", (.OpenBracket, "["), (.IntegerLiteral, "5")]⟩ =
      .errSyn ⟨["]", ":"], .EOF, "", ⟨0, 0⟩, ⟨0, 0⟩⟩ :=
  rfl

/-- The type node the declarations grammar builds for `[]int` at columns
1–3 of `[]int{1}`. -/
def c1Type : GoType := .sliceType (.typeName "" "int" ⟨⟨1, 3⟩, ⟨1, 4⟩⟩) ⟨1, 1⟩

/-- The `CompositeLiteral` node the declarations grammar builds for
`[]int{1}` (its `Type` child starts at column 1, before the open brace at
column 4). -/
def c1Lit : Expression :=
  .compositeLit (some c1Type) [.mk none (.intLit 1 ⟨⟨1, 5⟩, ⟨1, 6⟩⟩)] ⟨1, 4⟩ ⟨1, 6⟩

/-- The nested type-less `CompositeLiteral` the parser builds for the
element `{1}` of `[][]int{{1}}`. -/
def c1Inner : Expression :=
  .compositeLit none [.mk none (.intLit 1 ⟨⟨1, 8⟩, ⟨1, 9⟩⟩)] ⟨1, 7⟩ ⟨1, 9⟩

/-- The `CompositeLiteral` node the parser builds for `[][]int{{1}}`. -/
def c1Outer : Expression :=
  .compositeLit
    (some (.sliceType (.sliceType (.typeName "" "int" ⟨⟨1, 5⟩, ⟨1, 6⟩⟩) ⟨1, 3⟩) ⟨1, 1⟩))
    [.mk none c1Inner] ⟨1, 6⟩ ⟨1, 10⟩

/-- C1: the code violates span containment at `CompositeLiteral`. The
parser builds `c1Lit` for `[]int{1}`; its `Start()` is the open-brace
location (1,4) although its `Type` child starts at (1,1), so
`node.Start() <= child.Start()` fails; and for the parser-built nested
literal of `[][]int{{1}}`, whose `Type` is nil, `Start()` dereferences the
nil `Type` (modelled by `none`) instead of returning the open brace — the
nil test in `CompositeLiteral.Start` is inverted. -/
theorem C1_composite_literal_start_bug :
    DG.parseExpression 100 ⟨mkToks [(.OpenBracket, "["), (.CloseBracket, "]"),
        idT "int", (.OpenBrace, "\x7b"), (.IntegerLiteral, "1"), (.CloseBrace, "\x7d")]⟩ =
      .ok (c1Lit, ⟨[]⟩)
  ∧ Expression.startLoc? c1Lit = some ⟨1, 4⟩
  ∧ GoType.startL c1Type = ⟨1, 1⟩
  ∧ locLe ⟨1, 4⟩ ⟨1, 1⟩ = false
  ∧ Expression.endLoc? c1Lit = some ⟨1, 6⟩
  ∧ DG.parseExpression 100 ⟨mkToks [(.OpenBracket, "["), (.CloseBracket, "]"),
        (.OpenBracket, "["), (.CloseBracket, "]"), idT "int", (.OpenBrace, "\x7b"),
        (.OpenBrace, "\x7b"), (.IntegerLiteral, "1"), (.CloseBrace, "\x7d"),
        (.CloseBrace, "\x7d")]⟩ =
      .ok (c1Outer, ⟨[]⟩)
  ∧ Expression.startLoc? c1Inner = none :=
  ⟨rfl, rfl, rfl, by decide, rfl, rfl, rfl⟩

/-- C7: the decoded value stored in the AST equals the source text's
semantic value — the integer literal `010` decodes to 8, the float literal
`1e-1` decodes to the rational 1/10, and a raw (backquoted) string literal
decodes to its interior with every carriage return removed, for every
interior. -/
theorem C7_literal_decoding :
    parseIntegerLiteral ⟨[⟨.IntegerLiteral, "010", ⟨1, 1⟩, ⟨1, 2⟩⟩]⟩ =
      .ok (.intLit 8 ⟨⟨1, 1⟩, ⟨1, 2⟩⟩, ⟨[]⟩)
  ∧ parseFloatLiteral ⟨[⟨.FloatLiteral, "1e-1", ⟨1, 1⟩, ⟨1, 2⟩⟩]⟩ =
      .ok (.floatLit (1 / 10) ⟨⟨1, 1⟩, ⟨1, 2⟩⟩, ⟨[]⟩)
  ∧ ∀ (s : List Char),
      parseStringLiteral ⟨[⟨.StringLiteral, ⟨'`' :: s ++ ['`']⟩, ⟨1, 1⟩, ⟨1, 2⟩⟩]⟩ =
        .ok (.stringLit ⟨stripCR s⟩ ⟨⟨1, 1⟩, ⟨1, 2⟩⟩, ⟨[]⟩) := by
  refine ⟨rfl, by with_unfolding_all rfl, ?_⟩
  intro s
  simp [parseStringLiteral, Parser.text, Parser.cur, Parser.span, Parser.next,
    String.length, List.dropLast_concat]

/-- C10: `Parse` converts an unwinding value into a returned error exactly
when it is a `*SyntaxError` or a `*MalformedLiteral`; every other panic —
the `"unimplemented"` panics for struct and interface types in the
expression grammar and for `var` declarations in the declarations grammar,
and the internal `"bad string literal"`/`"bad rune literal"` panics — is
re-raised and escapes `Parse` instead of being returned. -/
theorem C10_panic_conversion_discipline :
    (∀ (fuel : Nat) (p : Parser) (s : String),
      EG.Parse fuel p = .panicked s ↔
        EG.parseExpression fuel p = .error (.unwind (.strPanic s)))
  ∧ (∀ (fuel : Nat) (p : Parser) (e : SynErr),
      EG.Parse fuel p = .errSyn e ↔
        EG.parseExpression fuel p = .error (.unwind (.syn e)))
  ∧ (∀ (fuel : Nat) (p : Parser) (e : MalformedLit),
      EG.Parse fuel p = .errMal e ↔
        EG.parseExpression fuel p = .error (.unwind (.mal e)))
  ∧ (∀ (fuel : Nat) (p : Parser) (s : String),
      DG.Parse fuel p = .panicked s ↔
        DG.parseDeclarations fuel p = .error (.unwind (.strPanic s)))
  ∧ EG.Parse 100 ⟨mkToks [idT "a", (.Dot, "."), (.OpenParen, "("),
      (.StructKw, "struct")]⟩ = .panicked "unimplemented"
  ∧ EG.Parse 100 ⟨mkToks [idT "a", (.Dot, "."), (.OpenParen, "("),
      (.InterfaceKw, "interface")]⟩ = .panicked "unimplemented"
  ∧ DG.Parse 100 ⟨mkToks [(.VarKw, "var")]⟩ = .panicked "unimplemented"
  ∧ EG.Parse 100 ⟨mkToks [(.StringLiteral, "\"")]⟩ =
      .panicked "bad string literal: \""
  ∧ EG.Parse 100 ⟨mkToks [(.RuneLiteral, "'a")]⟩ =
      .panicked "bad rune literal: 'a"
  ∧ EG.Parse 100 ⟨mkToks [(.IntegerLiteral, "08")]⟩ =
      .errMal ⟨"integer literal", "08", ⟨1, 1⟩, ⟨1, 2⟩⟩
  ∧ EG.Parse 100 ⟨mkToks [(.Plus, "+")]⟩ =
      .errSyn ⟨["operand"], .EOF, "", ⟨0, 0⟩, ⟨0, 0⟩⟩ := by
  refine ⟨?_, ?_, ?_, ?_, rfl, rfl, rfl, rfl, rfl, rfl, rfl⟩
  · intro fuel p s
    unfold EG.Parse
    cases h : EG.parseExpression fuel p with
    | ok x => simp
    | error e =>
      cases e with
      | outOfFuel => simp
      | unwind u => cases u <;> simp
  · intro fuel p e
    unfold EG.Parse
    cases h : EG.parseExpression fuel p with
    | ok x => simp
    | error e2 =>
      cases e2 with
      | outOfFuel => simp
      | unwind u => cases u <;> simp
  · intro fuel p e
    unfold EG.Parse
    cases h : EG.parseExpression fuel p with
    | ok x => simp
    | error e2 =>
      cases e2 with
      | outOfFuel => simp
      | unwind u => cases u <;> simp
  · intro fuel p s
    unfold DG.Parse
    cases h : DG.parseDeclarations fuel p with
    | ok x => simp
    | error e =>
      cases e with
      | outOfFuel => simp
      | unwind u => cases u <;> simp

/-! ### Resolver lemmas -/

/-- `Bind` never changes the enclosing-scope link. -/
theorem Symtab.bind_up (s : Symtab) (n : String) (d : Declaration) :
    ((s.Bind n d).1).up = s.up := by
  unfold Symtab.Bind
  split
  · rfl
  · split <;> simp [Symtab.up]

/-- Binding an import name never changes the file scope's enclosing
link. -/
theorem bindImportName_up (d : ImportDecl) (acc : Symtab × List Redecl) (nm : String) :
    ((bindImportName d acc nm).1).up = acc.1.up := by
  have hb := Symtab.bind_up acc.1 nm (.packageDecl d)
  unfold bindImportName
  rcases h : acc.1.Bind nm (.packageDecl d) with ⟨s2, err⟩
  rw [h] at hb
  cases err <;> simpa using hb

/-- Binding a whole import declaration never changes the file scope's
enclosing link. -/
theorem bindImportDecl_up (acc : Symtab × List Redecl) (d : ImportDecl) :
    ((bindImportDecl acc d).1).up = acc.1.up := by
  unfold bindImportDecl
  induction d.names generalizing acc with
  | nil => rfl
  | cons nm rest ih =>
    rw [List.foldl_cons, ih]
    exact bindImportName_up d acc nm

/-- The file scope built by `fileDecls` is always chained to the package
scope it was given, whatever the imports bind. -/
theorem fileDecls_up (psyms : Symtab) (f : File) :
    ((fileDecls psyms f).1).up = some psyms := by
  unfold fileDecls
  have h : ∀ (ds : List ImportDecl) (acc : Symtab × List Redecl),
      ((ds.foldl bindImportDecl acc).1).up = acc.1.up := by
    intro ds
    induction ds with
    | nil => intro acc; rfl
    | cons d rest ih =>
      intro acc
      rw [List.foldl_cons, ih]
      exact bindImportDecl_up acc d
  rw [h]
  rfl

/-- Binding the blank identifier returns no error and leaves the scope
unchanged. -/
theorem Symtab.bind_blank (s : Symtab) (d : Declaration) :
    s.Bind "_" d = (s, none) := by
  unfold Symtab.Bind
  simp

/-- `bindPkgName` on the blank identifier leaves the accumulator
unchanged. -/
theorem bindPkgName_blank (acc : Symtab × List ResolveErr) (v : Declaration) :
    bindPkgName acc "_" v = acc := by
  unfold bindPkgName
  rw [Symtab.bind_blank]

/-- Binding const views for all-blank identifiers leaves the accumulator
unchanged. -/
theorem bindConstViews_blank (spec : ConstSpecDecl) (ids : List Ident) (i : Nat)
    (acc : Symtab × List ResolveErr) (h : ids.all (fun id => id.name = "_") = true) :
    bindConstViews spec ids i acc = acc := by
  induction ids generalizing i acc with
  | nil => rfl
  | cons id rest ih =>
    simp only [List.all_cons, Bool.and_eq_true, decide_eq_true_eq] at h
    show bindConstViews spec rest (i + 1)
      (bindPkgName acc id.name (.constView spec i .unchecked)) = acc
    rw [h.1, bindPkgName_blank, ih (i + 1) acc (by simpa using h.2)]

/-- Binding var views for all-blank identifiers leaves the accumulator
unchanged. -/
theorem bindVarViews_blank (spec : VarSpecDecl) (ids : List Ident) (i : Nat)
    (acc : Symtab × List ResolveErr) (h : ids.all (fun id => id.name = "_") = true) :
    bindVarViews spec ids i acc = acc := by
  induction ids generalizing i acc with
  | nil => rfl
  | cons id rest ih =>
    simp only [List.all_cons, Bool.and_eq_true, decide_eq_true_eq] at h
    show bindVarViews spec rest (i + 1)
      (bindPkgName acc id.name (.varView spec i)) = acc
    rw [h.1, bindPkgName_blank, ih (i + 1) acc (by simpa using h.2)]

/-- A top-level declaration all of whose declared names are blank. -/
def TopDecl.allBlank : TopDecl → Bool
  | .methodDecl d => d.identifier.name = "_"
  | .funcDecl d => d.identifier.name = "_"
  | .typeSpec d => d.identifier.name = "_"
  | .constSpec d => d.identifiers.all (fun id => id.name = "_")
  | .varSpec d => d.identifiers.all (fun id => id.name = "_")

/-- A file with no imports whose top-level declarations declare only blank
names. -/
def File.allBlank (f : File) : Bool :=
  f.imports.isEmpty && f.declarations.all TopDecl.allBlank

/-- Binding an all-blank top-level declaration leaves the accumulator
unchanged. -/
theorem bindTopDecl_blank (acc : Symtab × List ResolveErr) (d : TopDecl)
    (h : d.allBlank = true) : bindTopDecl acc d = acc := by
  cases d with
  | methodDecl d =>
    simp only [TopDecl.allBlank, decide_eq_true_eq] at h
    show bindPkgName acc d.identifier.name (.methodDecl d) = acc
    rw [h, bindPkgName_blank]
  | funcDecl d =>
    simp only [TopDecl.allBlank, decide_eq_true_eq] at h
    show bindPkgName acc d.identifier.name (.funcDecl d) = acc
    rw [h, bindPkgName_blank]
  | typeSpec d =>
    simp only [TopDecl.allBlank, decide_eq_true_eq] at h
    show bindPkgName acc d.identifier.name (.typeSpec d) = acc
    rw [h, bindPkgName_blank]
  | constSpec d =>
    show bindConstViews d d.identifiers 0 acc = acc
    exact bindConstViews_blank d d.identifiers 0 acc (by simpa [TopDecl.allBlank] using h)
  | varSpec d =>
    show bindVarViews d d.identifiers 0 acc = acc
    exact bindVarViews_blank d d.identifiers 0 acc (by simpa [TopDecl.allBlank] using h)

/-- Resolving a file whose declarations are all blank and that has
no imports only appends its (empty) file scope. -/
theorem resolveFileStep_blank (psyms : Symtab) (fsyms : List Symtab)
    (errs : List ResolveErr) (f : File) (h : f.allBlank = true) :
    resolveFileStep (psyms, fsyms, errs) f =
      (psyms, fsyms ++ [Symtab.mk [] (some psyms)], errs) := by
  rcases f with ⟨imports, decls⟩
  simp only [File.allBlank, Bool.and_eq_true, List.isEmpty_iff] at h
  obtain ⟨h1, h2⟩ := h
  subst h1
  have hds : ∀ (ds : List TopDecl) (acc : Symtab × List ResolveErr),
      ds.all TopDecl.allBlank = true → ds.foldl bindTopDecl acc = acc := by
    intro ds
    induction ds with
    | nil => intro acc _; rfl
    | cons d rest ih =>
      intro acc hall
      simp only [List.all_cons, Bool.and_eq_true] at hall
      rw [List.foldl_cons, bindTopDecl_blank acc d hall.1, ih acc hall.2]
  calc resolveFileStep (psyms, fsyms, errs) ⟨[], decls⟩
      = ((decls.foldl bindTopDecl (psyms, errs)).1,
         fsyms ++ [Symtab.mk [] (some psyms)],
         (decls.foldl bindTopDecl (psyms, errs)).2) := rfl
    _ = (psyms, fsyms ++ [Symtab.mk [] (some psyms)], errs) := by
        rw [hds decls _ h2]

/-! ### Resolver claim theorems -/

/-- C3: with three top-level declarations of the same non-blank name `n`
and one of a different name `m` in one package, resolution returns the
scope binding `n` to the first declaration and `m` to its own (binding
never aborts), together with exactly two `Redeclaration` errors: one for
the second declaration and one for the third, both carrying the original
first declaration as `First`. -/
theorem C3_redeclaration_accumulation (n m : String) (s1 s2 s3 s4 : Span)
    (hn : n ≠ "_") (hm : m ≠ "_") (hnm : n ≠ m) :
    pkgDecls [⟨[], [.funcDecl ⟨⟨n, s1⟩⟩, .funcDecl ⟨⟨n, s2⟩⟩,
        .funcDecl ⟨⟨n, s3⟩⟩, .funcDecl ⟨⟨m, s4⟩⟩]⟩] =
      (Symtab.mk [(n, .funcDecl ⟨⟨n, s1⟩⟩), (m, .funcDecl ⟨⟨m, s4⟩⟩)] (some univScope),
       [Symtab.mk [] (some (makeSymtab univScope))],
       [.redecl ⟨n, .funcDecl ⟨⟨n, s1⟩⟩, .funcDecl ⟨⟨n, s2⟩⟩⟩,
        .redecl ⟨n, .funcDecl ⟨⟨n, s1⟩⟩, .funcDecl ⟨⟨n, s3⟩⟩⟩])
  ∧ (pkgDecls [⟨[], [.funcDecl ⟨⟨n, s1⟩⟩, .funcDecl ⟨⟨n, s2⟩⟩,
        .funcDecl ⟨⟨n, s3⟩⟩, .funcDecl ⟨⟨m, s4⟩⟩]⟩]).1.Find n =
      some (.funcDecl ⟨⟨n, s1⟩⟩)
  ∧ (pkgDecls [⟨[], [.funcDecl ⟨⟨n, s1⟩⟩, .funcDecl ⟨⟨n, s2⟩⟩,
        .funcDecl ⟨⟨n, s3⟩⟩, .funcDecl ⟨⟨m, s4⟩⟩]⟩]).1.Find m =
      some (.funcDecl ⟨⟨m, s4⟩⟩) := by
  refine ⟨?_, ?_, ?_⟩ <;>
    simp [pkgDecls, resolveFileStep, fileDecls, bindTopDecl, bindPkgName,
      Symtab.Bind, lookupDecls, makeSymtab, Symtab.decls, Symtab.up,
      Symtab.Find, hn, hm, hnm, Ne.symm hnm]

/-- C3 witness: the redeclaration scenario at the concrete names `x`
and `y`. -/
theorem C3_witness :
    (("x" : String) ≠ "_" ∧ ("y" : String) ≠ "_" ∧ ("x" : String) ≠ "y")
  ∧ (pkgDecls [⟨[], [.funcDecl ⟨⟨"x", ⟨⟨1, 1⟩, ⟨1, 2⟩⟩⟩⟩,
        .funcDecl ⟨⟨"x", ⟨⟨2, 1⟩, ⟨2, 2⟩⟩⟩⟩, .funcDecl ⟨⟨"x", ⟨⟨3, 1⟩, ⟨3, 2⟩⟩⟩⟩,
        .funcDecl ⟨⟨"y", ⟨⟨4, 1⟩, ⟨4, 2⟩⟩⟩⟩]⟩]).1.Find "x" =
      some (.funcDecl ⟨⟨"x", ⟨⟨1, 1⟩, ⟨1, 2⟩⟩⟩⟩) :=
  ⟨⟨by decide, by decide, by decide⟩,
   (C3_redeclaration_accumulation "x" "y" ⟨⟨1, 1⟩, ⟨1, 2⟩⟩ ⟨⟨2, 1⟩, ⟨2, 2⟩⟩
      ⟨⟨3, 1⟩, ⟨3, 2⟩⟩ ⟨⟨4, 1⟩, ⟨4, 2⟩⟩ (by decide) (by decide) (by decide)).2.1⟩

/-- C6 counterexample: the file scope that resolution creates is not
chained to the universe scope — its enclosing-scope link is the package
scope (here freshly created, hence with an empty table, unlike the
universe scope). -/
theorem C6_counterexample :
    ((fileDecls (makeSymtab univScope) ⟨[], []⟩).1).up =
      some (makeSymtab univScope)
  ∧ ((fileDecls (makeSymtab univScope) ⟨[], []⟩).1).up ≠ some univScope := by
  refine ⟨rfl, ?_⟩
  intro h
  have h2 : makeSymtab univScope = univScope := Option.some.inj h
  have h3 := congrArg Symtab.decls h2
  simp [makeSymtab, univScope, univDecls, Symtab.decls] at h3

/-- C6 amended: resolution creates one file scope per source file whose
enclosing-scope link is the package scope, itself linked to the universe
scope, whose chain ends at nil; and lookup from such a chain returns the
first match walking file → package → universe, or not-found once the
chain is exhausted (the walk is a total function of the finite chain, so
it never loops). -/
theorem C6_amended_scope_chain_and_lookup :
    (∀ (psyms : Symtab) (f : File), ((fileDecls psyms f).1).up = some psyms)
  ∧ (makeSymtab univScope).up = some univScope
  ∧ univScope.up = none
  ∧ ∀ (ft pt : List (String × Declaration)) (n : String),
      (Symtab.mk ft (some (Symtab.mk pt (some univScope)))).Find n =
        ((lookupDecls ft n).orElse fun _ =>
          ((lookupDecls pt n).orElse fun _ => lookupDecls univDecls n)) := by
  refine ⟨fileDecls_up, rfl, rfl, ?_⟩
  intro ft pt n
  simp only [Symtab.Find, Symtab.decls, Symtab.up, univScope]
  cases lookupDecls ft n <;> cases lookupDecls pt n <;>
    cases lookupDecls univDecls n <;> rfl

/-- C9: binding the blank identifier returns no error and leaves any
scope's table unchanged, so a package whose import lists are empty and
whose top-level declarations declare only `_` resolves to the untouched
(empty) package scope with zero `Redeclaration` errors, and `_` is never
found by lookup. -/
theorem C9_blank_identifier_never_bound :
    (∀ (s : Symtab) (d : Declaration), s.Bind "_" d = (s, none))
  ∧ (∀ (files : List File), files.all File.allBlank = true →
      pkgDecls files = (makeSymtab univScope,
        files.map (fun _ => Symtab.mk [] (some (makeSymtab univScope))), []))
  ∧ (makeSymtab univScope).Find "_" = none := by
  refine ⟨Symtab.bind_blank, ?_, rfl⟩
  intro files hall
  have key : ∀ (fs : List File) (sc : List Symtab) (es : List ResolveErr),
      fs.all File.allBlank = true →
      fs.foldl resolveFileStep (makeSymtab univScope, sc, es) =
        (makeSymtab univScope,
         sc ++ fs.map (fun _ => Symtab.mk [] (some (makeSymtab univScope))), es) := by
    intro fs
    induction fs with
    | nil => intro sc es _; simp
    | cons f rest ih =>
      intro sc es hall2
      simp only [List.all_cons, Bool.and_eq_true] at hall2
      rw [List.foldl_cons, resolveFileStep_blank _ _ _ _ hall2.1,
        ih _ _ hall2.2]
      simp [makeSymtab]
  simpa using key files [] [] hall

/-- C9 witness: a package consisting of two blank function declarations
and a blank constant declaration resolves without errors and binds
nothing. -/
theorem C9_witness :
    ([(⟨[], [.funcDecl ⟨⟨"_", ⟨⟨1, 1⟩, ⟨1, 2⟩⟩⟩⟩, .funcDecl ⟨⟨"_", ⟨⟨2, 1⟩, ⟨2, 2⟩⟩⟩⟩,
        .constSpec ⟨[⟨"_", ⟨⟨3, 1⟩, ⟨3, 2⟩⟩⟩]⟩]⟩ : File)].all File.allBlank = true)
  ∧ pkgDecls [⟨[], [.funcDecl ⟨⟨"_", ⟨⟨1, 1⟩, ⟨1, 2⟩⟩⟩⟩,
        .funcDecl ⟨⟨"_", ⟨⟨2, 1⟩, ⟨2, 2⟩⟩⟩⟩, .constSpec ⟨[⟨"_", ⟨⟨3, 1⟩, ⟨3, 2⟩⟩⟩]⟩]⟩] =
      (makeSymtab univScope, [Symtab.mk [] (some (makeSymtab univScope))], []) :=
  ⟨rfl,
   by
    have h := (C9_blank_identifier_never_bound.2.1
      [⟨[], [.funcDecl ⟨⟨"_", ⟨⟨1, 1⟩, ⟨1, 2⟩⟩⟩⟩, .funcDecl ⟨⟨"_", ⟨⟨2, 1⟩, ⟨2, 2⟩⟩⟩⟩,
        .constSpec ⟨[⟨"_", ⟨⟨3, 1⟩, ⟨3, 2⟩⟩⟩]⟩]⟩] rfl)
    simpa using h⟩

end Stop
